import Mathlib

/-!
# Verification of the call-scheduling service

Shallow embedding of the `CallsService` of the `server_schedule_call`
repository (NestJS, TypeScript): an in-memory registry of scheduled calls
(`scheduledCalls : Map<string, ScheduledCall>`), a recipient index
(`memberCallMap : Map<number, string[]>`), response timeouts
(`callTimeouts : Map<string, Timeout>`), and cron-based recurring triggers
managed through a `SchedulerRegistry`.

JavaScript `Map`s are modelled as association lists with `Map#set`
semantics (update in place when the key is present, append otherwise),
which preserves the insertion-order iteration of JS maps.  Wall-clock
instants (epoch milliseconds) are modelled as `Int`.  `setTimeout` handles
are modelled as timer identifiers drawn from a counter held in the state;
an armed response timeout is an entry of `callTimeouts`.
-/

namespace ServerScheduleCall

/-- Association-list lookup, modelling `Map#get` (returns the value of the
first entry with the given key, `none` when absent). -/
def mapGet {κ α : Type} [DecidableEq κ] (m : List (κ × α)) (k : κ) : Option α :=
  match m with
  | [] => none
  | e :: rest => if e.1 = k then some e.2 else mapGet rest k

/-- Association-list membership, modelling `Map#has`. -/
def mapHas {κ α : Type} [DecidableEq κ] (m : List (κ × α)) (k : κ) : Bool :=
  (mapGet m k).isSome

/-- Association-list update, modelling `Map#set`: if the key is present the
first matching entry is replaced in place, otherwise the new entry is
appended (JS maps keep insertion order). -/
def mapSet {κ α : Type} [DecidableEq κ] (m : List (κ × α)) (k : κ) (v : α) : List (κ × α) :=
  match m with
  | [] => [(k, v)]
  | e :: rest => if e.1 = k then (k, v) :: rest else e :: mapSet rest k v

/-- Association-list removal, modelling `Map#delete`. -/
def mapDelete {κ α : Type} [DecidableEq κ] (m : List (κ × α)) (k : κ) : List (κ × α) :=
  match m with
  | [] => []
  | e :: rest => if e.1 = k then mapDelete rest k else e :: mapDelete rest k

/-- Values of the map in insertion order, modelling `Array.from(map.values())`. -/
def mapValues {κ α : Type} (m : List (κ × α)) : List α :=
  m.map (fun e => e.2)

/-- Platform of the recipient device; source union type `'ios' | 'android'`. -/
inductive Platform : Type
  | ios
  | android
deriving DecidableEq, Repr

/-- Lifecycle state of a call; source union type
`'scheduled' | 'completed' | 'cancelled'` (the spec's Scheduled /
Dispatched / Cancelled). -/
inductive CallStatus : Type
  | scheduled
  | completed
  | cancelled
deriving DecidableEq, Repr

/-- Response of the recipient; source union type
`'answered' | 'declined' | 'missed'` (also `CallResponseStatus`). -/
inductive ResponseStatus : Type
  | answered
  | declined
  | missed
deriving DecidableEq, Repr

/-- The call record, from `interfaces/scheduled-call.interface.ts`
(the full interface with `memberSeq`, `enabled` and the three response
fields). -/
structure ScheduledCall : Type where
  uuid : String
  memberSeq : Int
  scheduledTime : Int
  deviceToken : String
  callerName : String
  callerAvatar : Option String
  callPurpose : Option String
  platform : Platform
  status : CallStatus
  enabled : Bool
  responseStatus : Option ResponseStatus
  responseTime : Option Int
  responseAdditionalInfo : Option String
deriving DecidableEq, Repr

/-- Input of `scheduleCall` / `initiateImmediateCall`, from
`dto/schedule-call.dto.ts`. -/
structure ScheduleCallDto : Type where
  uuid : Option String
  memberSeq : Int
  scheduledTime : Int
  deviceToken : String
  callerName : String
  callerAvatar : Option String
  callPurpose : Option String
  platform : Platform
deriving DecidableEq, Repr

/-- Input of `toggleScheduledCall`, from `dto/toggle-call.dto.ts`. -/
structure ToggleCallDto : Type where
  memberSeq : Int
  uuid : Option String
  enabled : Bool
deriving DecidableEq, Repr

/-- Input of `handleCallResponse`, from `dto/call-response.dto.ts`
(`responseTime` is an ISO-8601 string in the source; it is modelled here
already parsed to epoch milliseconds). -/
structure CallResponseDto : Type where
  uuid : String
  status : ResponseStatus
  responseTime : Option Int
  additionalInfo : Option String
deriving DecidableEq, Repr

/-- The distinct error messages thrown by the service. -/
inductive ErrMsg : Type
  | noCallForId
  | noCallForMember
  | noPermission
  | uuidMissing
deriving DecidableEq, Repr

/-- Errors escaping a service method.  The source throws
`NotFoundException` (a NestJS HTTP 404 exception) and plain `Error`;
`typeError` stands for the uncaught runtime `TypeError` of the
legacy toggle path when the indexed record is missing.  The source
defines no `ForbiddenException` and never throws one. -/
inductive ServiceError : Type
  | notFoundException (msg : ErrMsg)
  | plainError (msg : ErrMsg)
  | typeError
deriving DecidableEq, Repr

/-- One armed `setTimeout` for a call: the timer handle and the delay the
timer was armed with (milliseconds). -/
structure TimeoutEntry : Type where
  timerId : Nat
  delayMs : Int
deriving DecidableEq, Repr

/-- The mutable fields of `CallsService` plus the cron jobs held by the
`SchedulerRegistry` (key `call-<uuid>`, value the minute/hour pair of the
daily cron expression) and a counter producing fresh timer handles. -/
structure CallsState : Type where
  scheduledCalls : List (String × ScheduledCall)
  memberCallMap : List (Int × List String)
  callTimeouts : List (String × TimeoutEntry)
  cronJobs : List (String × Int × Int)
  nextTimerId : Nat
deriving DecidableEq, Repr

/-- The state of a freshly constructed service: every map empty. -/
def initialState : CallsState :=
  { scheduledCalls := [], memberCallMap := [], callTimeouts := [], cronJobs := [],
    nextTimerId := 0 }

/-- ASCII model of JS `String#toLowerCase`: uppercase ASCII letters are
lowered, everything else kept (identifier handling only ever meets
ASCII).  Defined over the character list so that it evaluates inside the
kernel. -/
def jsToLower (s : String) : String :=
  String.mk (s.data.map (fun c => if ('A' ≤ c && c ≤ 'Z') then Char.ofNat (c.toNat + 32) else c))

/-- Model of JS `String#trim`: whitespace stripped from both ends. -/
def jsTrim (s : String) : String :=
  String.mk (((s.data.dropWhile Char.isWhitespace).reverse.dropWhile Char.isWhitespace).reverse)

/-- Hex digit test for the UUID grammar (the regex character class
`[0-9a-f]` under the `i` flag). -/
def isHexChar (c : Char) : Bool :=
  c.isDigit || (('a' ≤ c) && (c ≤ 'f')) || (('A' ≤ c) && (c ≤ 'F'))

/-- Model of `isValidUUID`: the case-insensitive regex
`^[0-9a-f]{8}-[0-9a-f]{4}-[0-9a-f]{4}-[0-9a-f]{4}-[0-9a-f]{12}$`,
i.e. 36 characters, hyphens exactly at positions 8, 13, 18, 23 and hex
digits elsewhere. -/
def isValidUUID (s : String) : Bool :=
  let cs := s.toList
  cs.length = 36 &&
    (List.range 36).all (fun i =>
      if i = 8 || i = 13 || i = 18 || i = 23 then cs.getD i 'x' = '-'
      else isHexChar (cs.getD i 'x'))

/-- Model of `generateValidUUID`.  Successive outputs of the external
`uuidv4()` generator are an oracle `g : Nat → String`.  The source
lowercases each candidate, retries while the candidate collides with a
registry key, and after 5 attempts falls back to one more unchecked
generation.  `fuel` counts the remaining checked attempts (started at 5). -/
def generateValidUUIDLoop (calls : List (String × ScheduledCall)) (g : Nat → String)
    (i : Nat) : Nat → String
  | 0 => jsToLower (g i)
  | fuel + 1 =>
      let u := jsToLower (g i)
      if mapHas calls u then generateValidUUIDLoop calls g (i + 1) fuel else u

/-- Entry point of the bounded-retry UUID generation (`maxAttempts = 5`). -/
def generateValidUUID (calls : List (String × ScheduledCall)) (g : Nat → String) : String :=
  generateValidUUIDLoop calls g 0 5

/-- Model of `ensureValidUUID`: an invalid identifier is replaced by a
fresh generated one (the oracle result `gen`), a valid one is returned
lowercased. -/
def ensureValidUUID (gen : String) (uuid : String) : String :=
  if isValidUUID uuid then jsToLower uuid else gen

/-- Key under which the cron job of a call is registered:
the template literal `call-<uuid>`. -/
def cronKey (uuid : String) : String :=
  "call-" ++ uuid

/-- Model of `Date#getHours` on an epoch-millisecond instant, evaluated in
a fixed zero-offset server zone (the zone offset does not matter for any
claim below). -/
def getHours (t : Int) : Int :=
  (t.ediv 3600000).emod 24

/-- Model of `Date#getMinutes` on an epoch-millisecond instant. -/
def getMinutes (t : Int) : Int :=
  (t.ediv 60000).emod 60

/-- Model of `clearCallTimeout`: when an entry is armed for the identifier,
the timer is cleared and the entry removed from `callTimeouts`; otherwise
nothing happens. -/
def clearCallTimeout (uuid : String) (st : CallsState) : CallsState :=
  match mapGet st.callTimeouts uuid with
  | none => st
  | some _ => { st with callTimeouts := mapDelete st.callTimeouts uuid }

/-- Model of `setCallTimeout`: any existing timeout for the identifier is
cleared first, then a fresh timer is armed with the requested delay and
recorded under the identifier. -/
def setCallTimeout (uuid : String) (timeoutMs : Int) (st : CallsState) : CallsState :=
  let st1 := clearCallTimeout uuid st
  { st1 with
    callTimeouts := st1.callTimeouts ++ [(uuid, { timerId := st1.nextTimerId, delayMs := timeoutMs })],
    nextTimerId := st1.nextTimerId + 1 }

/-- Model of `handleCallTimeout`, the delayed callback of the response
timeout: re-fetch the record; do nothing if it is gone or already carries
a response; otherwise record an automatic `missed` response (keeping the
lifecycle `status` untouched) and drop the timeout entry. -/
def handleCallTimeout (uuid : String) (now : Int) (st : CallsState) : CallsState :=
  match mapGet st.scheduledCalls uuid with
  | none => st
  | some call =>
      if call.responseStatus.isSome then st
      else
        let call1 := { call with
          responseStatus := some ResponseStatus.missed,
          responseTime := some now,
          responseAdditionalInfo := some "응답 시간 초과 (자동 처리)" }
        { st with
          scheduledCalls := mapSet st.scheduledCalls uuid call1,
          callTimeouts := mapDelete st.callTimeouts uuid }

/-- Model of `handleCallResponse`: look up by id (`NotFoundException` when
absent), set the three response fields (`responseTime` defaulting to now),
upgrade `status` from `scheduled` to `completed`, persist, and clear any
pending response timeout.  Any previously recorded response is simply
overwritten. -/
def handleCallResponse (dto : CallResponseDto) (now : Int) (st : CallsState) :
    Except ServiceError ScheduledCall × CallsState :=
  match mapGet st.scheduledCalls dto.uuid with
  | none => (Except.error (ServiceError.notFoundException ErrMsg.noCallForId), st)
  | some call =>
      let parsedResponseTime := dto.responseTime.getD now
      let call1 := { call with
        responseStatus := some dto.status,
        responseTime := some parsedResponseTime,
        responseAdditionalInfo := dto.additionalInfo }
      let call2 := if call1.status = CallStatus.scheduled
        then { call1 with status := CallStatus.completed } else call1
      let st1 := { st with scheduledCalls := mapSet st.scheduledCalls dto.uuid call2 }
      (Except.ok call2, clearCallTimeout dto.uuid st1)

/-- Removal of an identifier from a recipient's index list (the shared
tail of `cancelScheduledCall`, `removeImmediateCallData` and the cleanup
cron): the list is filtered and the recipient entry deleted when it
becomes empty. -/
def memberMapRemove (memberSeq : Int) (uuid : String) (st : CallsState) : CallsState :=
  match mapGet st.memberCallMap memberSeq with
  | none => st
  | some memberUuids =>
      let updatedUuids := memberUuids.filter (fun u => u ≠ uuid)
      if updatedUuids.isEmpty then
        { st with memberCallMap := mapDelete st.memberCallMap memberSeq }
      else
        { st with memberCallMap := mapSet st.memberCallMap memberSeq updatedUuids }

/-- Model of `cancelScheduledCall`: look up the record (`NotFoundException`
when absent), delete the cron job (errors swallowed), clear the response
timeout, set `status` to `cancelled` (the record stays in the registry),
and remove the identifier from the recipient index. -/
def cancelScheduledCall (uuid : String) (st : CallsState) :
    Except ServiceError ScheduledCall × CallsState :=
  match mapGet st.scheduledCalls uuid with
  | none => (Except.error (ServiceError.notFoundException ErrMsg.noCallForId), st)
  | some call =>
      let st1 := { st with cronJobs := mapDelete st.cronJobs (cronKey uuid) }
      let st2 := clearCallTimeout uuid st1
      let call1 := { call with status := CallStatus.cancelled }
      let st3 := { st2 with scheduledCalls := mapSet st2.scheduledCalls uuid call1 }
      (Except.ok call1, memberMapRemove call.memberSeq uuid st3)

/-- Model of `cancelScheduledCallByMemberSeq`: `NotFoundException` when the
recipient index is absent or empty, otherwise cancel the first identifier
of the index list only. -/
def cancelScheduledCallByMemberSeq (memberSeq : Int) (st : CallsState) :
    Except ServiceError ScheduledCall × CallsState :=
  match mapGet st.memberCallMap memberSeq with
  | none => (Except.error (ServiceError.notFoundException ErrMsg.noCallForMember), st)
  | some uuids =>
      match uuids with
      | [] => (Except.error (ServiceError.notFoundException ErrMsg.noCallForMember), st)
      | firstUuid :: _ => cancelScheduledCall firstUuid st

/-- The legacy branch of `toggleScheduledCall` (no uuid in the request):
toggle the first record of the recipient's index.  The source dereferences
`scheduledCalls.get(firstUuid)` without a null check, so a dangling index
entry would crash with a `TypeError`. -/
def toggleScheduledCallLegacy (dto : ToggleCallDto) (st : CallsState) :
    Except ServiceError ScheduledCall × CallsState :=
  match mapGet st.memberCallMap dto.memberSeq with
  | none => (Except.error (ServiceError.notFoundException ErrMsg.noCallForMember), st)
  | some uuids =>
      match uuids with
      | [] => (Except.error (ServiceError.notFoundException ErrMsg.noCallForMember), st)
      | firstUuid :: _ =>
          match mapGet st.scheduledCalls firstUuid with
          | none => (Except.error ServiceError.typeError, st)
          | some call =>
              let call1 := { call with enabled := dto.enabled }
              (Except.ok call1,
                { st with scheduledCalls := mapSet st.scheduledCalls firstUuid call1 })

/-- Model of `toggleScheduledCall`.  When the request carries a (truthy,
i.e. nonempty) uuid: `NotFoundException` when no record exists under it;
a `NotFoundException` with a permission message when the record belongs to
a different recipient; otherwise the `enabled` flag is updated.  Without a
uuid the legacy first-of-index branch runs. -/
def toggleScheduledCall (dto : ToggleCallDto) (st : CallsState) :
    Except ServiceError ScheduledCall × CallsState :=
  match dto.uuid with
  | some uuid =>
      if uuid = "" then toggleScheduledCallLegacy dto st
      else
        match mapGet st.scheduledCalls uuid with
        | none => (Except.error (ServiceError.notFoundException ErrMsg.noCallForId), st)
        | some call =>
            if call.memberSeq ≠ dto.memberSeq then
              (Except.error (ServiceError.notFoundException ErrMsg.noPermission), st)
            else
              let call1 := { call with enabled := dto.enabled }
              (Except.ok call1,
                { st with scheduledCalls := mapSet st.scheduledCalls uuid call1 })
  | none => toggleScheduledCallLegacy dto st

/-- Model of `scheduleRecurringCallJob`: any existing cron job under
`call-<uuid>` is deleted (absence swallowed), then a daily job firing at
the hour:minute of `scheduledTime` is registered under the same key. -/
def scheduleRecurringCallJob (call : ScheduledCall) (st : CallsState) : CallsState :=
  let jobs := mapDelete st.cronJobs (cronKey call.uuid)
  { st with
    cronJobs := jobs ++ [(cronKey call.uuid,
      (getMinutes call.scheduledTime, getHours call.scheduledTime))] }

/-- The cancellation attempt at the top of `scheduleCall`:
`cancelScheduledCall(scheduleCallDto.uuid)` inside `try/catch`.  The
argument is the raw request-supplied identifier (possibly `undefined`);
a thrown `NotFoundException` is swallowed, keeping whatever partial state
the failed cancel left (a failed cancel mutates nothing). -/
def tryCancelRequestUuid (dtoUuid : Option String) (st : CallsState) : CallsState :=
  match dtoUuid with
  | none => st
  | some u => (cancelScheduledCall u st).2

/-- Identifier resolution shared by `scheduleCall` and
`initiateImmediateCall`: a truthy (present, nonempty after trim) valid
client identifier is used lowercased and trimmed, anything else is
replaced by a generated one (oracle `g`). -/
def resolveUuid (dtoUuid : Option String) (g : Nat → String)
    (calls : List (String × ScheduledCall)) : String :=
  match dtoUuid with
  | some u =>
      if jsTrim u ≠ "" then
        if isValidUUID (jsTrim u) then jsTrim (jsToLower u)
        else generateValidUUID calls g
      else generateValidUUID calls g
  | none => generateValidUUID calls g

/-- Appending a fresh identifier to a recipient's index list:
`if (!map.has(m)) map.set(m, []); map.get(m).push(uuid)`. -/
def memberMapPush (memberSeq : Int) (uuid : String) (st : CallsState) : CallsState :=
  { st with
    memberCallMap :=
      mapSet st.memberCallMap memberSeq
        (((mapGet st.memberCallMap memberSeq).getD []) ++ [uuid]) }

/-- Model of `scheduleCall`.  `g1` and `g2` are the `uuidv4()` oracles of
the two possible `generateValidUUID` calls (identifier resolution, and the
regeneration after a duplicate check hit).  Steps, in source order: cancel
the request-supplied identifier when the recipient's index is nonempty
(errors swallowed); resolve the identifier; regenerate on a registry
collision; fail with a plain `Error` if the identifier is the empty
string; store the record (`status = scheduled`, `enabled = true`); append
to the recipient index; arm the daily recurring cron job.  No comparison
of `scheduledTime` against the current time is performed anywhere.
This first definition is the opening step alone: cancel the
request-supplied identifier when the recipient's index is nonempty. -/
def scheduleCallPre (dto : ScheduleCallDto) (st : CallsState) : CallsState :=
  match mapGet st.memberCallMap dto.memberSeq with
  | some existingCallUuids =>
      if existingCallUuids.length > 0 then tryCancelRequestUuid dto.uuid st else st
  | none => st

/-- Model of `scheduleCall` proper; see `scheduleCallPre` for the
documentation of the steps. -/
def scheduleCall (dto : ScheduleCallDto) (g1 g2 : Nat → String) (st : CallsState) :
    Except ServiceError ScheduledCall × CallsState :=
  let st0 := scheduleCallPre dto st
  let resolved := resolveUuid dto.uuid g1 st0.scheduledCalls
  let uuid :=
    if mapHas st0.scheduledCalls resolved then generateValidUUID st0.scheduledCalls g2
    else resolved
  if uuid = "" then (Except.error (ServiceError.plainError ErrMsg.uuidMissing), st0)
  else
    let scheduledCall : ScheduledCall :=
      { uuid := uuid, memberSeq := dto.memberSeq, scheduledTime := dto.scheduledTime,
        deviceToken := dto.deviceToken, callerName := dto.callerName,
        callerAvatar := dto.callerAvatar, callPurpose := dto.callPurpose,
        platform := dto.platform, status := CallStatus.scheduled, enabled := true,
        responseStatus := none, responseTime := none, responseAdditionalInfo := none }
    let st1 := { st0 with scheduledCalls := mapSet st0.scheduledCalls uuid scheduledCall }
    let st2 := memberMapPush dto.memberSeq uuid st1
    (Except.ok scheduledCall, scheduleRecurringCallJob scheduledCall st2)

/-- Outcome of one dispatch attempt inside `initiateCall`:
`firebaseOff` is the `admin.apps.length === 0` test-mode early return;
`delivered` and `deliveryFailed` are a send attempt whose transport
success or failure is absorbed inside `sendIosVoipNotification` /
`sendAndroidFcmNotification` (both run the same registry-relevant code);
`thrown` is an exception reaching the outer `catch` of `initiateCall`. -/
inductive DispatchOutcome : Type
  | firebaseOff
  | delivered
  | deliveryFailed
  | thrown
deriving DecidableEq, Repr

/-- Model of `removeImmediateCallData`: clear the response timeout, delete
the record from the registry and filter its identifier out of the
recipient index. -/
def removeImmediateCallData (call : ScheduledCall) (st : CallsState) : CallsState :=
  let st1 := clearCallTimeout call.uuid st
  let st2 := { st1 with scheduledCalls := mapDelete st1.scheduledCalls call.uuid }
  memberMapRemove call.memberSeq call.uuid st2

/-- The identifier-repair step shared by both send functions: when
`ensureValidUUID` changes the identifier, the mutated record object is
stored under the new key while the old map entry keeps aliasing the same
mutated object, so both keys end up bound to the repaired record. -/
def sendNotificationFix (fixGen : String) (call : ScheduledCall) (st : CallsState) :
    ScheduledCall × CallsState :=
  let validUUID := ensureValidUUID fixGen call.uuid
  if validUUID = call.uuid then (call, st)
  else
    let call1 := { call with uuid := validUUID }
    (call1,
      { st with
        scheduledCalls :=
          mapSet (mapSet st.scheduledCalls call.uuid call1) validUUID call1 })

/-- Model of `initiateCall` run to completion (its synchronous prefix plus
the awaited send): mark the record `completed` and persist it, arm the
60-second response timeout, then attempt delivery; on the immediate-call
path every branch (test mode, send attempt, outer catch) ends in
`removeImmediateCallData`. -/
def initiateCall (isImmediateCall : Bool) (outcome : DispatchOutcome) (fixGen : String)
    (call : ScheduledCall) (st : CallsState) : CallsState :=
  let call1 := { call with status := CallStatus.completed }
  let st1 := { st with scheduledCalls := mapSet st.scheduledCalls call1.uuid call1 }
  let st2 := setCallTimeout call1.uuid 60000 st1
  match outcome with
  | DispatchOutcome.firebaseOff =>
      if isImmediateCall then removeImmediateCallData call1 st2 else st2
  | DispatchOutcome.delivered =>
      let call2 := (sendNotificationFix fixGen call1 st2).1
      let st3 := (sendNotificationFix fixGen call1 st2).2
      if isImmediateCall then removeImmediateCallData call2 st3 else st3
  | DispatchOutcome.deliveryFailed =>
      let call2 := (sendNotificationFix fixGen call1 st2).1
      let st3 := (sendNotificationFix fixGen call1 st2).2
      if isImmediateCall then removeImmediateCallData call2 st3 else st3
  | DispatchOutcome.thrown =>
      if isImmediateCall then removeImmediateCallData call1 st2 else st2

/-- Model of `initiateImmediateCall`: identifier resolution identical to
`scheduleCall` (but with no cancellation of an existing call), the record
is stored with `scheduledTime = now`, appended to the recipient index, and
dispatched immediately with `isImmediateCall = true` (which removes the
stored data again on every dispatch path); the record object is returned
to the caller regardless. -/
def initiateImmediateCall (dto : ScheduleCallDto) (g1 g2 : Nat → String)
    (now : Int) (outcome : DispatchOutcome) (fixGen : String) (st : CallsState) :
    Except ServiceError ScheduledCall × CallsState :=
  let resolved := resolveUuid dto.uuid g1 st.scheduledCalls
  let uuid :=
    if mapHas st.scheduledCalls resolved then generateValidUUID st.scheduledCalls g2
    else resolved
  if uuid = "" then (Except.error (ServiceError.plainError ErrMsg.uuidMissing), st)
  else
    let scheduledCall : ScheduledCall :=
      { uuid := uuid, memberSeq := dto.memberSeq, scheduledTime := now,
        deviceToken := dto.deviceToken, callerName := dto.callerName,
        callerAvatar := dto.callerAvatar, callPurpose := dto.callPurpose,
        platform := dto.platform, status := CallStatus.scheduled, enabled := true,
        responseStatus := none, responseTime := none, responseAdditionalInfo := none }
    let st1 := { st with scheduledCalls := mapSet st.scheduledCalls uuid scheduledCall }
    let st2 := memberMapPush dto.memberSeq uuid st1
    (Except.ok scheduledCall, initiateCall true outcome fixGen scheduledCall st2)

/-- Result shape of `getCallResponseStats`. -/
structure CallStats : Type where
  totalCalls : Nat
  answered : Nat
  declined : Nat
  missed : Nat
  noResponse : Nat
  answerRate : String
deriving DecidableEq, Repr

/-- Exact-arithmetic model of the ECMAScript expression
`((num / total) * 100).toFixed(1)` for nonnegative integers with
`total > 0`: the underlying rational rounded to the nearest tenth of a
percent, ties to the larger value, printed with exactly one digit after
the decimal point. -/
def toFixed1Pct (num total : Nat) : String :=
  let n := (2000 * num + total) / (2 * total)
  toString (n / 10) ++ "." ++ toString (n % 10)

/-- Model of `getCallResponseStats`.  The recipient scope mirrors the JS
truthiness test `if (memberSeq)`: a present nonzero recipient restricts to
that recipient's indexed calls, a missing recipient — or recipient `0`,
which is falsy — scopes over every registry value.  Only `completed`
(dispatched) calls are counted; the four buckets partition them by
`responseStatus`, and `answerRate` is `(answered + declined) / total` as a
one-decimal percentage string, `0.0%` when the total is zero. -/
def getCallResponseStats (memberSeq : Option Int) (st : CallsState) : CallStats :=
  let calls : List ScheduledCall :=
    match memberSeq with
    | some m =>
        if m ≠ 0 then
          ((mapGet st.memberCallMap m).getD []).filterMap
            (fun u => mapGet st.scheduledCalls u)
        else mapValues st.scheduledCalls
    | none => mapValues st.scheduledCalls
  let completedCalls := calls.filter (fun c => c.status = CallStatus.completed)
  let answered := completedCalls.countP (fun c => c.responseStatus = some ResponseStatus.answered)
  let declined := completedCalls.countP (fun c => c.responseStatus = some ResponseStatus.declined)
  let missed := completedCalls.countP (fun c => c.responseStatus = some ResponseStatus.missed)
  let noResponse := completedCalls.countP (fun c => c.responseStatus = none)
  let totalCalls := completedCalls.length
  { totalCalls := totalCalls, answered := answered, declined := declined,
    missed := missed, noResponse := noResponse,
    answerRate :=
      if totalCalls > 0 then toFixed1Pct (answered + declined) totalCalls ++ "%"
      else "0.0" ++ "%" }

/-- One iteration of the cleanup loop body: a `completed` or `cancelled`
record whose `scheduledTime` lies more than 24 hours before `now` has its
timeout cleared and is purged from the registry and the recipient index. -/
def cleanupEntry (now : Int) (st : CallsState) (e : String × ScheduledCall) : CallsState :=
  if (e.2.status = CallStatus.completed || e.2.status = CallStatus.cancelled) &&
      decide (e.2.scheduledTime < now - 24 * 60 * 60 * 1000) then
    let st1 := clearCallTimeout e.1 st
    let st2 := { st1 with scheduledCalls := mapDelete st1.scheduledCalls e.1 }
    memberMapRemove e.2.memberSeq e.1 st2
  else st

/-- Model of `cleanupCompletedCalls` (the daily-midnight cron): iterate the
registry entries captured at entry to the loop, purging the old completed
or cancelled ones. -/
def cleanupCompletedCalls (now : Int) (st : CallsState) : CallsState :=
  st.scheduledCalls.foldl (cleanupEntry now) st

/-- Freshness of a `uuidv4()` oracle with respect to a registry: every
candidate the bounded-retry generation could consume (indices 0 through 5)
lowercases to a key not present in the registry.  This models the
astronomically-likely collision-freedom of `uuidv4`; the source accepts
the residual collision risk of its unchecked fallback as a documented
trade-off. -/
def OracleFresh (calls : List (String × ScheduledCall)) (g : Nat → String) : Prop :=
  ∀ i, i ≤ 5 → mapGet calls (jsToLower (g i)) = none

instance (calls : List (String × ScheduledCall)) (g : Nat → String) :
    Decidable (OracleFresh calls g) := by
  unfold OracleFresh
  infer_instance

/-- One observable transition of the service: each public operation, a
recurring-trigger fire, and a response-timeout fire.  `uuidv4()` outputs
are oracle parameters constrained by `OracleFresh`.  A trigger fire
dispatches the record captured by the cron callback's closure; because
that closure object can outlive its registry entry (cleanup never
deregisters cron jobs), the dispatched record is over-approximated as an
arbitrary record, which only enlarges the set of modelled behaviours.  A
timeout fire requires a live `callTimeouts` entry, since `clearTimeout`
prevents a cancelled timer from ever firing. -/
inductive Step : CallsState → CallsState → Prop
  | schedule (st : CallsState) (dto : ScheduleCallDto) (g1 g2 : Nat → String)
      (h2 : OracleFresh st.scheduledCalls g2) :
      Step st (scheduleCall dto g1 g2 st).2
  | immediate (st : CallsState) (dto : ScheduleCallDto) (g1 g2 : Nat → String)
      (now : Int) (outcome : DispatchOutcome) (fixGen : String)
      (h2 : OracleFresh st.scheduledCalls g2) :
      Step st (initiateImmediateCall dto g1 g2 now outcome fixGen st).2
  | cronFire (st : CallsState) (call : ScheduledCall) (outcome : DispatchOutcome)
      (fixGen : String) :
      Step st (if call.enabled then initiateCall false outcome fixGen call st else st)
  | cancel (st : CallsState) (uuid : String) :
      Step st (cancelScheduledCall uuid st).2
  | cancelByMember (st : CallsState) (memberSeq : Int) :
      Step st (cancelScheduledCallByMemberSeq memberSeq st).2
  | toggle (st : CallsState) (dto : ToggleCallDto) :
      Step st (toggleScheduledCall dto st).2
  | respond (st : CallsState) (dto : CallResponseDto) (now : Int) :
      Step st (handleCallResponse dto now st).2
  | timeoutFire (st : CallsState) (uuid : String) (now : Int)
      (harmed : mapHas st.callTimeouts uuid) :
      Step st (handleCallTimeout uuid now st)
  | cleanup (st : CallsState) (now : Int) :
      Step st (cleanupCompletedCalls now st)

/-- States reachable from the freshly constructed service by any sequence
of observable transitions. -/
def Reachable (st : CallsState) : Prop :=
  Relation.ReflTransGen Step initialState st

/-- A single record is response/lifecycle consistent: if it carries a
response it is not in lifecycle state `scheduled`. -/
def RespOk (c : ScheduledCall) : Prop :=
  c.responseStatus.isSome → c.status ≠ CallStatus.scheduled

/-- The response/lifecycle part of the registry invariant: a record
carrying a response is never in lifecycle state `scheduled`. -/
def RespInv (st : CallsState) : Prop :=
  ∀ e ∈ st.scheduledCalls, RespOk e.2

/-- The auxiliary timeout invariant: every armed response timeout belongs
to a registry record in lifecycle state `completed` (dispatched). -/
def TimeoutInv (st : CallsState) : Prop :=
  ∀ e ∈ st.callTimeouts,
    ∃ c, mapGet st.scheduledCalls e.1 = some c ∧ c.status = CallStatus.completed

/-- The inductive invariant maintained by every transition. -/
def Inv (st : CallsState) : Prop :=
  RespInv st ∧ TimeoutInv st

/-- The identifier finally used by `scheduleCall`: the resolved identifier,
regenerated on a registry collision (evaluated after the opening
cancellation step, whose state is `scheduleCallPre dto st`). -/
def scheduleCallUuid (dto : ScheduleCallDto) (g1 g2 : Nat → String) (st : CallsState) : String :=
  let resolved := resolveUuid dto.uuid g1 (scheduleCallPre dto st).scheduledCalls
  if mapHas (scheduleCallPre dto st).scheduledCalls resolved then
    generateValidUUID (scheduleCallPre dto st).scheduledCalls g2
  else resolved

/-- The identifier finally used by `initiateImmediateCall` (same resolution
as `scheduleCall`, but with no opening cancellation step). -/
def immediateCallUuid (dto : ScheduleCallDto) (g1 g2 : Nat → String) (st : CallsState) : String :=
  let resolved := resolveUuid dto.uuid g1 st.scheduledCalls
  if mapHas st.scheduledCalls resolved then generateValidUUID st.scheduledCalls g2
  else resolved

/-- The record freshly built by `scheduleCall` (with the request's
`scheduledTime`) and by `initiateImmediateCall` (with `t = now`). -/
def builtScheduledCall (dto : ScheduleCallDto) (u : String) (t : Int) : ScheduledCall :=
  { uuid := u, memberSeq := dto.memberSeq, scheduledTime := t,
    deviceToken := dto.deviceToken, callerName := dto.callerName,
    callerAvatar := dto.callerAvatar, callPurpose := dto.callPurpose,
    platform := dto.platform, status := CallStatus.scheduled, enabled := true,
    responseStatus := none, responseTime := none, responseAdditionalInfo := none }

/-- The record produced by the found branch of `handleCallResponse`: the
three response fields set from the request (time defaulting to `now`), and
`status` upgraded from `scheduled` to `completed`. -/
def responseUpdatedRecord (c : ScheduledCall) (dto : CallResponseDto) (now : Int) :
    ScheduledCall :=
  let c1 := { c with
    responseStatus := some dto.status,
    responseTime := some (dto.responseTime.getD now),
    responseAdditionalInfo := dto.additionalInfo }
  if c1.status = CallStatus.scheduled then { c1 with status := CallStatus.completed } else c1

/-! ## Concrete example data used by witnesses and counterexamples -/

/-- A canonical valid lowercase identifier. -/
def exUuidA : String := "aaaaaaaa-aabb-4abc-8abc-aaaaaaaaaaaa"

/-- A second valid lowercase identifier. -/
def exUuidB : String := "bbbbbbbb-bbaa-4abc-8abc-bbbbbbbbbbbb"

/-- An oracle producing `exUuidA` on every draw. -/
def exGA : Nat → String := fun _ => exUuidA

/-- An oracle producing `exUuidB` on every draw. -/
def exGB : Nat → String := fun _ => exUuidB

/-- A schedule request for recipient 42 carrying identifier `exUuidA`. -/
def exDtoA : ScheduleCallDto :=
  { uuid := some exUuidA, memberSeq := 42, scheduledTime := 1000,
    deviceToken := "devtok", callerName := "caller", callerAvatar := none,
    callPurpose := none, platform := Platform.ios }

/-- A schedule request for recipient 42 with no client identifier and a
`scheduledTime` in the past of any plausible clock. -/
def exDtoNoUuid : ScheduleCallDto :=
  { uuid := none, memberSeq := 42, scheduledTime := 0,
    deviceToken := "devtok", callerName := "caller", callerAvatar := none,
    callPurpose := none, platform := Platform.android }

/-- State after scheduling `exDtoA` on the fresh service: one `scheduled`
record under `exUuidA`, indexed for recipient 42. -/
def exStA : CallsState := (scheduleCall exDtoA exGB exGB initialState).2

/-- State after cancelling `exUuidA` in `exStA`: the record is `cancelled`
but still stored; the index entry is gone. -/
def exStACancelled : CallsState := (cancelScheduledCall exUuidA exStA).2

/-- An `answered` response request for `exUuidA`. -/
def exRespA : CallResponseDto :=
  { uuid := exUuidA, status := ResponseStatus.answered, responseTime := some 2000,
    additionalInfo := none }

/-- State after recording a response on the cancelled record: the record is
`cancelled` yet carries a response. -/
def exStACancelResp : CallsState := (handleCallResponse exRespA 3000 exStACancelled).2

/-- State after recording a response on the live scheduled record. -/
def exStAResp : CallsState := (handleCallResponse exRespA 3000 exStA).2

/-- The record of `exUuidA` after cancel followed by response. -/
def exRecACancelResp : ScheduledCall :=
  { uuid := exUuidA, memberSeq := 42, scheduledTime := 1000,
    deviceToken := "devtok", callerName := "caller", callerAvatar := none,
    callPurpose := none, platform := Platform.ios, status := CallStatus.cancelled,
    enabled := true, responseStatus := some ResponseStatus.answered,
    responseTime := some 2000, responseAdditionalInfo := none }

/-- The record of `exUuidA` after responding to the live scheduled record:
upgraded to `completed`, carrying the `answered` response. -/
def exRecAResponded : ScheduledCall :=
  { uuid := exUuidA, memberSeq := 42, scheduledTime := 1000,
    deviceToken := "devtok", callerName := "caller", callerAvatar := none,
    callPurpose := none, platform := Platform.ios, status := CallStatus.completed,
    enabled := true, responseStatus := some ResponseStatus.answered,
    responseTime := some 2000, responseAdditionalInfo := none }

/-- A dispatched record under `exUuidB` for recipient 1 that carries an
`answered` response. -/
def exRecBCompleted : ScheduledCall :=
  { uuid := exUuidB, memberSeq := 1, scheduledTime := 1000,
    deviceToken := "devtok", callerName := "caller", callerAvatar := none,
    callPurpose := none, platform := Platform.android, status := CallStatus.completed,
    enabled := true, responseStatus := some ResponseStatus.answered,
    responseTime := some 2000, responseAdditionalInfo := none }

/-- A registry holding only recipient 1's dispatched answered call. -/
def exStatsSt : CallsState :=
  { scheduledCalls := [(exUuidB, exRecBCompleted)],
    memberCallMap := [(1, [exUuidB])], callTimeouts := [], cronJobs := [],
    nextTimerId := 0 }

/-- A dispatched record under `exUuidA` awaiting its response. -/
def exRecADispatched : ScheduledCall :=
  { uuid := exUuidA, memberSeq := 42, scheduledTime := 1000,
    deviceToken := "devtok", callerName := "caller", callerAvatar := none,
    callPurpose := none, platform := Platform.ios, status := CallStatus.completed,
    enabled := true, responseStatus := none, responseTime := none,
    responseAdditionalInfo := none }

/-- A registry holding the dispatched record `exRecADispatched` with its
response timeout armed. -/
def exStDispatched : CallsState :=
  { scheduledCalls := [(exUuidA, exRecADispatched)],
    memberCallMap := [(42, [exUuidA])],
    callTimeouts := [(exUuidA, { timerId := 0, delayMs := 60000 })], cronJobs := [],
    nextTimerId := 1 }

/-- The dispatched record after an automatic timeout resolution. -/
def exRecAMissed : ScheduledCall :=
  { exRecADispatched with
    responseStatus := some ResponseStatus.missed, responseTime := some 70000,
    responseAdditionalInfo := some "응답 시간 초과 (자동 처리)" }

/-- A registry holding the automatically-missed record. -/
def exStMissed : CallsState :=
  { scheduledCalls := [(exUuidA, exRecAMissed)],
    memberCallMap := [(42, [exUuidA])], callTimeouts := [], cronJobs := [],
    nextTimerId := 1 }

/-- A toggle request for `exUuidA` from the wrong recipient. -/
def exToggleWrong : ToggleCallDto :=
  { memberSeq := 7, uuid := some exUuidA, enabled := false }

/-- A toggle request for `exUuidA` from its owner. -/
def exToggleRight : ToggleCallDto :=
  { memberSeq := 42, uuid := some exUuidA, enabled := false }

/-! ## Association-list lemmas -/

theorem mapGet_mapSet_self {κ α : Type} [DecidableEq κ] (m : List (κ × α)) (k : κ) (v : α) :
    mapGet (mapSet m k v) k = some v := by
  induction m with
  | nil => simp [mapSet, mapGet]
  | cons e rest ih =>
      by_cases h : e.1 = k
      · simp [mapSet, h, mapGet]
      · simp [mapSet, h, mapGet, ih]

theorem mapGet_mapSet_ne {κ α : Type} [DecidableEq κ] (m : List (κ × α)) (k k' : κ) (v : α)
    (h : k' ≠ k) : mapGet (mapSet m k v) k' = mapGet m k' := by
  have hkk : ¬ k = k' := fun h' => h h'.symm
  induction m with
  | nil => simp [mapSet, mapGet, hkk]
  | cons e rest ih =>
      rw [mapSet]
      by_cases he : e.1 = k
      · have hek : ¬ e.1 = k' := by rw [he]; exact hkk
        rw [if_pos he, mapGet, if_neg hkk, mapGet, if_neg hek]
      · rw [if_neg he, mapGet, mapGet, ih]

theorem mapGet_mapDelete {κ α : Type} [DecidableEq κ] (m : List (κ × α)) (k k' : κ) :
    mapGet (mapDelete m k) k' = if k' = k then none else mapGet m k' := by
  induction m with
  | nil => by_cases hk : k' = k <;> simp [mapDelete, mapGet, hk]
  | cons e rest ih =>
      rw [mapDelete]
      by_cases he : e.1 = k
      · rw [if_pos he, ih]
        by_cases hk : k' = k
        · simp [hk]
        · have hek : ¬ e.1 = k' := by rw [he]; exact fun h => hk h.symm
          rw [if_neg hk, if_neg hk, mapGet, if_neg hek]
      · rw [if_neg he, mapGet]
        by_cases hek : e.1 = k'
        · have hk : ¬ k' = k := fun h => he (by rw [hek, h])
          rw [if_pos hek, if_neg hk, mapGet, if_pos hek]
        · rw [if_neg hek, ih]
          by_cases hk : k' = k
          · simp [hk]
          · rw [if_neg hk, if_neg hk, mapGet, if_neg hek]

theorem mapGet_mem {κ α : Type} [DecidableEq κ] {m : List (κ × α)} {k : κ} {v : α}
    (h : mapGet m k = some v) : (k, v) ∈ m := by
  induction m with
  | nil => simp [mapGet] at h
  | cons e rest ih =>
      rw [mapGet] at h
      by_cases he : e.1 = k
      · simp only [he, if_true, Option.some.injEq] at h
        have : e = (k, v) := by
          obtain ⟨a, b⟩ := e
          simp only at he h
          rw [he, h]
        rw [← this]
        exact List.mem_cons_self _ _
      · simp only [he, if_false] at h
        exact List.mem_cons_of_mem _ (ih h)

theorem not_mem_of_mapGet_eq_none {κ α : Type} [DecidableEq κ] {m : List (κ × α)} {k : κ}
    (h : mapGet m k = none) (v : α) : (k, v) ∉ m := by
  induction m with
  | nil => simp
  | cons e rest ih =>
      rw [mapGet] at h
      by_cases he : e.1 = k
      · simp [he] at h
      · simp only [he, if_false] at h
        intro hmem
        rcases List.mem_cons.1 hmem with h1 | h1
        · exact he (by rw [← h1])
        · exact ih h h1

theorem mem_mapSet {κ α : Type} [DecidableEq κ] {m : List (κ × α)} {k : κ} {v : α} {e : κ × α}
    (h : e ∈ mapSet m k v) : e = (k, v) ∨ e ∈ m := by
  induction m with
  | nil => simpa [mapSet] using h
  | cons e0 rest ih =>
      by_cases he : e0.1 = k
      · rw [mapSet, if_pos he] at h
        rcases List.mem_cons.1 h with h1 | h1
        · exact Or.inl h1
        · exact Or.inr (List.mem_cons_of_mem _ h1)
      · rw [mapSet, if_neg he] at h
        rcases List.mem_cons.1 h with h1 | h1
        · exact Or.inr (h1 ▸ List.mem_cons_self _ _)
        · rcases ih h1 with h2 | h2
          · exact Or.inl h2
          · exact Or.inr (List.mem_cons_of_mem _ h2)

theorem mem_mapDelete {κ α : Type} [DecidableEq κ] {m : List (κ × α)} {k : κ} {e : κ × α}
    (h : e ∈ mapDelete m k) : e ∈ m ∧ e.1 ≠ k := by
  induction m with
  | nil => simp [mapDelete] at h
  | cons e0 rest ih =>
      rw [mapDelete] at h
      by_cases he : e0.1 = k
      · rw [if_pos he] at h
        obtain ⟨h1, h2⟩ := ih h
        exact ⟨List.mem_cons_of_mem _ h1, h2⟩
      · rw [if_neg he] at h
        rcases List.mem_cons.1 h with h1 | h1
        · refine ⟨h1 ▸ List.mem_cons_self _ _, ?_⟩
          rw [h1]
          exact he
        · obtain ⟨h2, h3⟩ := ih h1
          exact ⟨List.mem_cons_of_mem _ h2, h3⟩

theorem mapHas_iff {κ α : Type} [DecidableEq κ] (m : List (κ × α)) (k : κ) :
    mapHas m k = true ↔ mapGet m k ≠ none := by
  unfold mapHas
  cases mapGet m k <;> simp

theorem mapGet_mapSet_isSome {κ α : Type} [DecidableEq κ] (m : List (κ × α)) (k k' : κ) (v : α)
    (h : mapGet m k ≠ none) :
    (mapGet (mapSet m k v) k' = none) ↔ (mapGet m k' = none) := by
  by_cases hk : k' = k
  · subst hk
    rw [mapGet_mapSet_self]
    simp [h]
  · rw [mapGet_mapSet_ne _ _ _ _ hk]

theorem mapDelete_of_mapGet_eq_none {κ α : Type} [DecidableEq κ] {m : List (κ × α)} {k : κ}
    (h : mapGet m k = none) : mapDelete m k = m := by
  induction m with
  | nil => rfl
  | cons e rest ih =>
      rw [mapGet] at h
      by_cases he : e.1 = k
      · simp [he] at h
      · simp only [he, if_false] at h
        rw [mapDelete, if_neg he, ih h]

/-! ## State-shape equations for the operations -/

theorem clearCallTimeout_eq (u : String) (st : CallsState) :
    clearCallTimeout u st = { st with callTimeouts := mapDelete st.callTimeouts u } := by
  unfold clearCallTimeout
  cases hc : mapGet st.callTimeouts u
  · rw [mapDelete_of_mapGet_eq_none hc]
  · rfl

theorem setCallTimeout_eq (u : String) (dur : Int) (st : CallsState) :
    setCallTimeout u dur st =
      { st with
        callTimeouts :=
          mapDelete st.callTimeouts u ++ [(u, { timerId := st.nextTimerId, delayMs := dur })],
        nextTimerId := st.nextTimerId + 1 } := by
  unfold setCallTimeout
  rw [clearCallTimeout_eq]

theorem memberMapRemove_scheduledCalls (ms : Int) (u : String) (st : CallsState) :
    (memberMapRemove ms u st).scheduledCalls = st.scheduledCalls := by
  unfold memberMapRemove
  cases mapGet st.memberCallMap ms
  · rfl
  · dsimp only
    split <;> rfl

theorem memberMapRemove_callTimeouts (ms : Int) (u : String) (st : CallsState) :
    (memberMapRemove ms u st).callTimeouts = st.callTimeouts := by
  unfold memberMapRemove
  cases mapGet st.memberCallMap ms
  · rfl
  · dsimp only
    split <;> rfl

theorem scheduleRecurringCallJob_scheduledCalls (c : ScheduledCall) (st : CallsState) :
    (scheduleRecurringCallJob c st).scheduledCalls = st.scheduledCalls := rfl

theorem scheduleRecurringCallJob_callTimeouts (c : ScheduledCall) (st : CallsState) :
    (scheduleRecurringCallJob c st).callTimeouts = st.callTimeouts := rfl

theorem memberMapPush_scheduledCalls (ms : Int) (u : String) (st : CallsState) :
    (memberMapPush ms u st).scheduledCalls = st.scheduledCalls := rfl

theorem memberMapPush_cronJobs (ms : Int) (u : String) (st : CallsState) :
    (memberMapPush ms u st).cronJobs = st.cronJobs := rfl

theorem memberMapPush_nextTimerId (ms : Int) (u : String) (st : CallsState) :
    (memberMapPush ms u st).nextTimerId = st.nextTimerId := rfl

theorem memberMapPush_memberCallMap (ms : Int) (u : String) (st : CallsState) :
    (memberMapPush ms u st).memberCallMap =
      mapSet st.memberCallMap ms ((mapGet st.memberCallMap ms).getD [] ++ [u]) := rfl

theorem scheduleRecurringCallJob_memberCallMap (c : ScheduledCall) (st : CallsState) :
    (scheduleRecurringCallJob c st).memberCallMap = st.memberCallMap := rfl

theorem memberMapPush_callTimeouts (ms : Int) (u : String) (st : CallsState) :
    (memberMapPush ms u st).callTimeouts = st.callTimeouts := rfl

theorem generateValidUUID_fresh (calls : List (String × ScheduledCall)) (g : Nat → String)
    (h : OracleFresh calls g) : mapGet calls (generateValidUUID calls g) = none := by
  have h0 := h 0 (by norm_num)
  simp only [generateValidUUID, generateValidUUIDLoop, mapHas, h0, Option.isSome_none,
    Bool.false_eq_true, if_false]

theorem cancelScheduledCall_mapGet_none (u : String) (st : CallsState) (k : String) :
    mapGet ((cancelScheduledCall u st).2).scheduledCalls k = none ↔
      mapGet st.scheduledCalls k = none := by
  unfold cancelScheduledCall
  cases hc : mapGet st.scheduledCalls u
  · exact Iff.rfl
  · dsimp only
    rw [memberMapRemove_scheduledCalls]
    dsimp only
    rw [clearCallTimeout_eq]
    dsimp only
    apply mapGet_mapSet_isSome
    rw [hc]
    exact fun h => Option.noConfusion h

theorem tryCancelRequestUuid_mapGet_none (o : Option String) (st : CallsState) (k : String) :
    mapGet ((tryCancelRequestUuid o st)).scheduledCalls k = none ↔
      mapGet st.scheduledCalls k = none := by
  unfold tryCancelRequestUuid
  cases o
  · exact Iff.rfl
  · exact cancelScheduledCall_mapGet_none _ _ _

/-! ## Preservation of the registry invariant -/

theorem respList_mapSet {m : List (String × ScheduledCall)} {k : String} {v : ScheduledCall}
    (hm : ∀ e ∈ m, RespOk e.2) (hv : RespOk v) : ∀ e ∈ mapSet m k v, RespOk e.2 := by
  intro e he
  rcases mem_mapSet he with h1 | h1
  · rw [h1]
    exact hv
  · exact hm e h1

theorem timeoutList_mapSet_completed {m : List (String × ScheduledCall)}
    {t : List (String × TimeoutEntry)} {k : String} {v : ScheduledCall}
    (ht : ∀ e ∈ t, ∃ c, mapGet m e.1 = some c ∧ c.status = CallStatus.completed)
    (hv : v.status = CallStatus.completed) :
    ∀ e ∈ t, ∃ c, mapGet (mapSet m k v) e.1 = some c ∧ c.status = CallStatus.completed := by
  intro e he
  by_cases hk : e.1 = k
  · exact ⟨v, by rw [hk, mapGet_mapSet_self], hv⟩
  · obtain ⟨c, hc1, hc2⟩ := ht e he
    exact ⟨c, by rw [mapGet_mapSet_ne _ _ _ _ hk]; exact hc1, hc2⟩

theorem Inv_clearCallTimeout (u : String) (st : CallsState) (h : Inv st) :
    Inv (clearCallTimeout u st) := by
  rw [clearCallTimeout_eq]
  refine ⟨h.1, ?_⟩
  intro e he
  exact h.2 e (mem_mapDelete he).1

theorem Inv_setCallTimeout (u : String) (dur : Int) (st : CallsState) (h : Inv st)
    (hc : ∃ c, mapGet st.scheduledCalls u = some c ∧ c.status = CallStatus.completed) :
    Inv (setCallTimeout u dur st) := by
  rw [setCallTimeout_eq]
  refine ⟨h.1, ?_⟩
  intro e he
  rcases List.mem_append.1 he with h1 | h1
  · exact h.2 e (mem_mapDelete h1).1
  · have h2 : e = (u, { timerId := st.nextTimerId, delayMs := dur }) := by simpa using h1
    rw [h2]
    exact hc

theorem Inv_removeImmediateCallData (call : ScheduledCall) (st : CallsState) (h : Inv st) :
    Inv (removeImmediateCallData call st) := by
  unfold removeImmediateCallData
  rw [clearCallTimeout_eq]
  constructor
  · intro e he
    rw [memberMapRemove_scheduledCalls] at he
    exact h.1 e (mem_mapDelete he).1
  · intro e he
    rw [memberMapRemove_callTimeouts] at he
    rw [memberMapRemove_scheduledCalls]
    dsimp only at he ⊢
    obtain ⟨he1, _⟩ := mem_mapDelete he
    obtain ⟨c, hc1, hc2⟩ := h.2 e he1
    by_cases hk : e.1 = call.uuid
    · exfalso
      obtain ⟨he2, he3⟩ := mem_mapDelete he
      exact he3 hk
    · exact ⟨c, by rw [mapGet_mapDelete, if_neg hk]; exact hc1, hc2⟩

theorem Inv_insertFresh (u : String) (v : ScheduledCall) (st : CallsState) (h : Inv st)
    (hfresh : mapGet st.scheduledCalls u = none) (hok : RespOk v) :
    Inv { st with scheduledCalls := mapSet st.scheduledCalls u v } := by
  constructor
  · exact respList_mapSet h.1 hok
  · intro e he
    obtain ⟨c, hc1, hc2⟩ := h.2 e he
    by_cases hk : e.1 = u
    · rw [hk, hfresh] at hc1
      cases hc1
    · exact ⟨c, by rw [mapGet_mapSet_ne _ _ _ _ hk]; exact hc1, hc2⟩

theorem Inv_handleCallTimeout (u : String) (now : Int) (st : CallsState) (h : Inv st)
    (harmed : mapHas st.callTimeouts u = true) : Inv (handleCallTimeout u now st) := by
  unfold handleCallTimeout
  cases hc : mapGet st.scheduledCalls u with
  | none => exact h
  | some call =>
      dsimp only
      rcases hte : mapGet st.callTimeouts u with _ | te
      · rw [mapHas, hte] at harmed
        simp at harmed
      · obtain ⟨c, hc1, hc2⟩ := h.2 (u, te) (mapGet_mem hte)
        have hcall : c = call := by
          rw [hc] at hc1
          exact (Option.some.inj hc1).symm
        have hst : call.status = CallStatus.completed := by
          rw [← hcall]
          exact hc2
        by_cases hr : call.responseStatus.isSome = true
        · rw [if_pos hr]
          exact h
        · rw [if_neg hr]
          constructor
          · apply respList_mapSet h.1
            intro _
            show call.status ≠ CallStatus.scheduled
            rw [hst]
            intro hx
            cases hx
          · intro e he
            obtain ⟨he1, he2⟩ := mem_mapDelete he
            obtain ⟨c2, hc21, hc22⟩ := h.2 e he1
            by_cases hk : e.1 = u
            · exact absurd hk he2
            · exact ⟨c2, by rw [mapGet_mapSet_ne _ _ _ _ hk]; exact hc21, hc22⟩

theorem Inv_handleCallResponse (dto : CallResponseDto) (now : Int) (st : CallsState)
    (h : Inv st) : Inv (handleCallResponse dto now st).2 := by
  unfold handleCallResponse
  cases hc : mapGet st.scheduledCalls dto.uuid with
  | none => exact h
  | some call =>
      dsimp only
      rw [clearCallTimeout_eq]
      constructor
      · apply respList_mapSet h.1
        by_cases h1 : ({ call with
            responseStatus := some dto.status,
            responseTime := some (dto.responseTime.getD now),
            responseAdditionalInfo := dto.additionalInfo } : ScheduledCall).status =
              CallStatus.scheduled
        · rw [if_pos h1]
          intro _
          intro hx
          cases hx
        · rw [if_neg h1]
          intro _
          exact h1
      · intro e he
        obtain ⟨he1, he2⟩ := mem_mapDelete he
        obtain ⟨c2, hc21, hc22⟩ := h.2 e he1
        by_cases hk : e.1 = dto.uuid
        · exact absurd hk he2
        · exact ⟨c2, by rw [mapGet_mapSet_ne _ _ _ _ hk]; exact hc21, hc22⟩

theorem Inv_cancelScheduledCall (u : String) (st : CallsState) (h : Inv st) :
    Inv (cancelScheduledCall u st).2 := by
  unfold cancelScheduledCall
  cases hc : mapGet st.scheduledCalls u with
  | none => exact h
  | some call =>
      dsimp only
      rw [clearCallTimeout_eq]
      constructor
      · intro e he
        rw [memberMapRemove_scheduledCalls] at he
        rcases mem_mapSet he with h1 | h1
        · rw [h1]
          intro _
          intro hx
          cases hx
        · exact h.1 e h1
      · intro e he
        rw [memberMapRemove_callTimeouts] at he
        rw [memberMapRemove_scheduledCalls]
        obtain ⟨he1, he2⟩ := mem_mapDelete he
        obtain ⟨c2, hc21, hc22⟩ := h.2 e he1
        by_cases hk : e.1 = u
        · exact absurd hk he2
        · exact ⟨c2, by rw [mapGet_mapSet_ne _ _ _ _ hk]; exact hc21, hc22⟩

theorem Inv_cancelScheduledCallByMemberSeq (ms : Int) (st : CallsState) (h : Inv st) :
    Inv (cancelScheduledCallByMemberSeq ms st).2 := by
  unfold cancelScheduledCallByMemberSeq
  cases mapGet st.memberCallMap ms with
  | none => exact h
  | some uuids =>
      cases uuids with
      | nil => exact h
      | cons u rest => exact Inv_cancelScheduledCall u st h

theorem Inv_setEnabled (u : String) (b : Bool) (call : ScheduledCall) (st : CallsState)
    (h : Inv st) (hc : mapGet st.scheduledCalls u = some call) :
    Inv { st with scheduledCalls := mapSet st.scheduledCalls u { call with enabled := b } } := by
  constructor
  · apply respList_mapSet h.1
    intro hr
    show call.status ≠ CallStatus.scheduled
    exact h.1 (u, call) (mapGet_mem hc) hr
  · intro e he
    obtain ⟨c, hc1, hc2⟩ := h.2 e he
    by_cases hk : e.1 = u
    · refine ⟨{ call with enabled := b }, by rw [hk, mapGet_mapSet_self], ?_⟩
      show call.status = CallStatus.completed
      have hcc : c = call := by
        rw [hk, hc] at hc1
        exact (Option.some.inj hc1).symm
      rw [← hcc]
      exact hc2
    · exact ⟨c, by rw [mapGet_mapSet_ne _ _ _ _ hk]; exact hc1, hc2⟩

theorem Inv_toggleScheduledCallLegacy (dto : ToggleCallDto) (st : CallsState) (h : Inv st) :
    Inv (toggleScheduledCallLegacy dto st).2 := by
  unfold toggleScheduledCallLegacy
  cases mapGet st.memberCallMap dto.memberSeq with
  | none => exact h
  | some uuids =>
      cases uuids with
      | nil => exact h
      | cons firstUuid rest =>
          dsimp only
          cases hc : mapGet st.scheduledCalls firstUuid with
          | none => exact h
          | some call => exact Inv_setEnabled firstUuid dto.enabled call st h hc

theorem Inv_toggleScheduledCall (dto : ToggleCallDto) (st : CallsState) (h : Inv st) :
    Inv (toggleScheduledCall dto st).2 := by
  unfold toggleScheduledCall
  cases dto.uuid with
  | none => exact Inv_toggleScheduledCallLegacy dto st h
  | some u =>
      dsimp only
      by_cases hu : u = ""
      · rw [if_pos hu]
        exact Inv_toggleScheduledCallLegacy dto st h
      · rw [if_neg hu]
        cases hc : mapGet st.scheduledCalls u with
        | none => exact h
        | some call =>
            dsimp only
            by_cases hm : call.memberSeq ≠ dto.memberSeq
            · rw [if_pos hm]
              exact h
            · rw [if_neg hm]
              exact Inv_setEnabled u dto.enabled call st h hc

theorem Inv_sendNotificationFix (fixGen : String) (call : ScheduledCall) (st : CallsState)
    (h : Inv st) (hcompleted : call.status = CallStatus.completed) :
    Inv (sendNotificationFix fixGen call st).2 := by
  unfold sendNotificationFix
  by_cases hv : ensureValidUUID fixGen call.uuid = call.uuid
  · rw [if_pos hv]
    exact h
  · rw [if_neg hv]
    constructor
    · apply respList_mapSet
      · apply respList_mapSet h.1
        intro _
        show call.status ≠ CallStatus.scheduled
        rw [hcompleted]
        intro hx
        cases hx
      · intro _
        show call.status ≠ CallStatus.scheduled
        rw [hcompleted]
        intro hx
        cases hx
    · apply timeoutList_mapSet_completed
      · apply timeoutList_mapSet_completed h.2
        exact hcompleted
      · exact hcompleted

theorem Inv_initiateCall (imm : Bool) (oc : DispatchOutcome) (fixGen : String)
    (call : ScheduledCall) (st : CallsState) (h : Inv st) :
    Inv (initiateCall imm oc fixGen call st) := by
  unfold initiateCall
  have h1 : Inv { st with
      scheduledCalls := mapSet st.scheduledCalls call.uuid
        { call with status := CallStatus.completed } } := by
    constructor
    · apply respList_mapSet h.1
      intro _
      intro hx
      cases hx
    · exact timeoutList_mapSet_completed h.2 rfl
  have h2 : Inv (setCallTimeout call.uuid 60000 { st with
      scheduledCalls := mapSet st.scheduledCalls call.uuid
        { call with status := CallStatus.completed } }) := by
    apply Inv_setCallTimeout _ _ _ h1
    exact ⟨_, mapGet_mapSet_self _ _ _, rfl⟩
  cases oc with
  | firebaseOff =>
      dsimp only
      cases imm
      · exact h2
      · exact Inv_removeImmediateCallData _ _ h2
  | delivered =>
      dsimp only
      have h3 := Inv_sendNotificationFix fixGen { call with status := CallStatus.completed } _ h2 rfl
      cases imm
      · exact h3
      · exact Inv_removeImmediateCallData _ _ h3
  | deliveryFailed =>
      dsimp only
      have h3 := Inv_sendNotificationFix fixGen { call with status := CallStatus.completed } _ h2 rfl
      cases imm
      · exact h3
      · exact Inv_removeImmediateCallData _ _ h3
  | thrown =>
      dsimp only
      cases imm
      · exact h2
      · exact Inv_removeImmediateCallData _ _ h2

theorem Inv_of_eq (st st' : CallsState) (h : Inv st)
    (hs : st'.scheduledCalls = st.scheduledCalls)
    (ht : st'.callTimeouts = st.callTimeouts) : Inv st' := by
  constructor
  · intro e he
    rw [hs] at he
    exact h.1 e he
  · intro e he
    rw [ht] at he
    rw [hs]
    exact h.2 e he

theorem cleanupEntry_eq (now : Int) (st : CallsState) (e : String × ScheduledCall) :
    cleanupEntry now st e =
      if (e.2.status = CallStatus.completed || e.2.status = CallStatus.cancelled) &&
          decide (e.2.scheduledTime < now - 24 * 60 * 60 * 1000) then
        removeImmediateCallData { e.2 with uuid := e.1 } st
      else st := rfl

theorem Inv_cleanup_fold (now : Int) (l : List (String × ScheduledCall)) (st : CallsState)
    (h : Inv st) : Inv (l.foldl (cleanupEntry now) st) := by
  induction l generalizing st with
  | nil => exact h
  | cons e rest ih =>
      apply ih
      rw [cleanupEntry_eq]
      split
      · exact Inv_removeImmediateCallData _ _ h
      · exact h

theorem Inv_cleanupCompletedCalls (now : Int) (st : CallsState) (h : Inv st) :
    Inv (cleanupCompletedCalls now st) :=
  Inv_cleanup_fold now st.scheduledCalls st h

theorem mapGet_eq_none_of_mapHas_false {κ α : Type} [DecidableEq κ] {m : List (κ × α)} {k : κ}
    (h : ¬ mapHas m k = true) : mapGet m k = none := by
  rw [mapHas] at h
  cases hm : mapGet m k
  · rfl
  · rw [hm] at h
    simp at h

theorem Inv_scheduleCallPre (dto : ScheduleCallDto) (st : CallsState) (h : Inv st) :
    Inv (scheduleCallPre dto st) := by
  unfold scheduleCallPre
  cases mapGet st.memberCallMap dto.memberSeq with
  | none => exact h
  | some l =>
      dsimp only
      split
      · unfold tryCancelRequestUuid
        cases dto.uuid with
        | none => exact h
        | some u => exact Inv_cancelScheduledCall u st h
      · exact h

theorem scheduleCallPre_mapGet_none (dto : ScheduleCallDto) (st : CallsState) (k : String) :
    mapGet (scheduleCallPre dto st).scheduledCalls k = none ↔
      mapGet st.scheduledCalls k = none := by
  unfold scheduleCallPre
  cases mapGet st.memberCallMap dto.memberSeq with
  | none => exact Iff.rfl
  | some l =>
      dsimp only
      split
      · exact tryCancelRequestUuid_mapGet_none _ _ _
      · exact Iff.rfl

theorem dedupUuid_fresh (g2 : Nat → String) (resolved : String)
    (calls : List (String × ScheduledCall)) (h2 : OracleFresh calls g2) :
    mapGet calls
      (if mapHas calls resolved = true then generateValidUUID calls g2 else resolved) = none := by
  by_cases hd : mapHas calls resolved = true
  · rw [if_pos hd]
    exact generateValidUUID_fresh _ _ h2
  · rw [if_neg hd]
    exact mapGet_eq_none_of_mapHas_false hd

theorem Inv_scheduleCall (dto : ScheduleCallDto) (g1 g2 : Nat → String) (st : CallsState)
    (h : Inv st) (h2 : OracleFresh st.scheduledCalls g2) :
    Inv (scheduleCall dto g1 g2 st).2 := by
  have h0 : Inv (scheduleCallPre dto st) := Inv_scheduleCallPre dto st h
  have h2' : OracleFresh (scheduleCallPre dto st).scheduledCalls g2 := by
    intro i hi
    exact (scheduleCallPre_mapGet_none dto st _).2 (h2 i hi)
  unfold scheduleCall
  dsimp only
  by_cases hd : mapHas (scheduleCallPre dto st).scheduledCalls
      (resolveUuid dto.uuid g1 (scheduleCallPre dto st).scheduledCalls) = true
  · rw [if_pos hd]
    split
    · exact h0
    · exact Inv_of_eq _ _
        (Inv_insertFresh _ _ _ h0 (generateValidUUID_fresh _ _ h2') (fun hr => by simp at hr))
        rfl rfl
  · rw [if_neg hd]
    split
    · exact h0
    · exact Inv_of_eq _ _
        (Inv_insertFresh _ _ _ h0 (mapGet_eq_none_of_mapHas_false hd) (fun hr => by simp at hr))
        rfl rfl

theorem Inv_initiateImmediateCall (dto : ScheduleCallDto) (g1 g2 : Nat → String) (now : Int)
    (oc : DispatchOutcome) (fixGen : String) (st : CallsState) (h : Inv st)
    (h2 : OracleFresh st.scheduledCalls g2) :
    Inv (initiateImmediateCall dto g1 g2 now oc fixGen st).2 := by
  unfold initiateImmediateCall
  dsimp only
  by_cases hd : mapHas st.scheduledCalls (resolveUuid dto.uuid g1 st.scheduledCalls) = true
  · rw [if_pos hd]
    split
    · exact h
    · apply Inv_initiateCall
      exact Inv_of_eq _ _
        (Inv_insertFresh _ _ _ h (generateValidUUID_fresh _ _ h2) (fun hr => by simp at hr))
        rfl rfl
  · rw [if_neg hd]
    split
    · exact h
    · apply Inv_initiateCall
      exact Inv_of_eq _ _
        (Inv_insertFresh _ _ _ h (mapGet_eq_none_of_mapHas_false hd) (fun hr => by simp at hr))
        rfl rfl

theorem Inv_step (st st' : CallsState) (h : Inv st) (hs : Step st st') : Inv st' := by
  cases hs with
  | schedule dto g1 g2 h2 => exact Inv_scheduleCall dto g1 g2 st h h2
  | immediate dto g1 g2 now oc fixGen h2 =>
      exact Inv_initiateImmediateCall dto g1 g2 now oc fixGen st h h2
  | cronFire call oc fixGen =>
      split
      · exact Inv_initiateCall false oc fixGen call st h
      · exact h
  | cancel u => exact Inv_cancelScheduledCall u st h
  | cancelByMember ms => exact Inv_cancelScheduledCallByMemberSeq ms st h
  | toggle dto => exact Inv_toggleScheduledCall dto st h
  | respond dto now => exact Inv_handleCallResponse dto now st h
  | timeoutFire u now harmed => exact Inv_handleCallTimeout u now st h harmed
  | cleanup now => exact Inv_cleanupCompletedCalls now st h

theorem Inv_initialState : Inv initialState := by
  constructor
  · intro e he
    cases he
  · intro e he
    cases he

theorem Inv_reachable (st : CallsState) (h : Reachable st) : Inv st := by
  unfold Reachable at h
  induction h with
  | refl => exact Inv_initialState
  | tail _ hbc ih => exact Inv_step _ _ ih hbc

theorem mapGet_append_of_none {κ α : Type} [DecidableEq κ] {l1 : List (κ × α)}
    (l2 : List (κ × α)) {k : κ} (h : mapGet l1 k = none) :
    mapGet (l1 ++ l2) k = mapGet l2 k := by
  induction l1 with
  | nil => rfl
  | cons e rest ih =>
      rw [mapGet] at h
      by_cases he : e.1 = k
      · simp [he] at h
      · simp only [he, if_false] at h
        rw [List.cons_append, mapGet, if_neg he, ih h]

theorem mapDelete_append {κ α : Type} [DecidableEq κ] (l1 l2 : List (κ × α)) (k : κ) :
    mapDelete (l1 ++ l2) k = mapDelete l1 k ++ mapDelete l2 k := by
  induction l1 with
  | nil => rfl
  | cons e rest ih =>
      rw [List.cons_append, mapDelete, mapDelete]
      by_cases he : e.1 = k
      · rw [if_pos he, if_pos he, ih]
      · rw [if_neg he, if_neg he, ih, List.cons_append]

theorem mapDelete_mapDelete {κ α : Type} [DecidableEq κ] (m : List (κ × α)) (k : κ) :
    mapDelete (mapDelete m k) k = mapDelete m k := by
  induction m with
  | nil => rfl
  | cons e rest ih =>
      rw [mapDelete]
      by_cases he : e.1 = k
      · rw [if_pos he, ih]
      · rw [if_neg he, mapDelete, if_neg he, ih]

theorem mapDelete_mapSet {κ α : Type} [DecidableEq κ] (m : List (κ × α)) (k : κ) (v : α) :
    mapDelete (mapSet m k v) k = mapDelete m k := by
  induction m with
  | nil => simp [mapSet, mapDelete]
  | cons e rest ih =>
      rw [mapSet]
      by_cases he : e.1 = k
      · rw [if_pos he, mapDelete, if_pos rfl, mapDelete, if_pos he]
      · rw [if_neg he, mapDelete, if_neg he, mapDelete, if_neg he, ih]

theorem mapSet_eq_of_mapGet_eq {κ α : Type} [DecidableEq κ] {m : List (κ × α)} {k : κ} {v : α}
    (h : mapGet m k = some v) : mapSet m k v = m := by
  induction m with
  | nil => simp [mapGet] at h
  | cons e rest ih =>
      rw [mapGet] at h
      rw [mapSet]
      by_cases he : e.1 = k
      · rw [if_pos he]
        simp only [he, if_true, Option.some.injEq] at h
        have : e = (k, v) := by
          obtain ⟨a, b⟩ := e
          simp only at he h
          rw [he, h]
        rw [this]
      · rw [if_neg he]
        simp only [he, if_false] at h
        rw [ih h]

theorem filter_keyEq_mapDelete_nil {α : Type} (m : List (String × α)) (k : String) :
    (mapDelete m k).filter (fun e => e.1 == k) = [] := by
  induction m with
  | nil => rfl
  | cons e rest ih =>
      rw [mapDelete]
      by_cases he : e.1 = k
      · rw [if_pos he, ih]
      · rw [if_neg he, List.filter_cons]
        have : (e.1 == k) = false := beq_eq_false_iff_ne.2 he
        rw [this]
        simp only [Bool.false_eq_true, if_false]
        exact ih

theorem countP_responseStatus_partition (l : List ScheduledCall) :
    l.countP (fun c => c.responseStatus = some ResponseStatus.answered) +
      l.countP (fun c => c.responseStatus = some ResponseStatus.declined) +
      l.countP (fun c => c.responseStatus = some ResponseStatus.missed) +
      l.countP (fun c => c.responseStatus = none) = l.length := by
  induction l with
  | nil => rfl
  | cons c rest ih =>
      rw [List.countP_cons, List.countP_cons, List.countP_cons, List.countP_cons,
        List.length_cons]
      rcases hc : c.responseStatus with _ | s
      · simp only [hc]
        simp
        omega
      · cases s <;> simp only [hc] <;> simp <;> omega

/-! ## Claim theorems -/

/-- C1: when the response-timeout callback fires for an identifier, it
leaves the registry unchanged if no record exists under it, or if the
record already carries a response (it never overwrites an existing
response with `missed`); otherwise it records an automatic `missed`
response with the firing time and the auto-timeout note, leaves the
record's lifecycle state untouched, and changes no other record. -/
theorem C1_handleCallTimeout_spec (st : CallsState) (uuid : String) (now : Int) :
    (mapGet st.scheduledCalls uuid = none → handleCallTimeout uuid now st = st) ∧
    (∀ c, mapGet st.scheduledCalls uuid = some c → c.responseStatus.isSome →
        handleCallTimeout uuid now st = st) ∧
    (∀ c, mapGet st.scheduledCalls uuid = some c → c.responseStatus = none →
        mapGet (handleCallTimeout uuid now st).scheduledCalls uuid =
          some { c with responseStatus := some ResponseStatus.missed,
                        responseTime := some now,
                        responseAdditionalInfo := some "응답 시간 초과 (자동 처리)" } ∧
        ({ c with
            responseStatus := some ResponseStatus.missed,
            responseTime := some now,
            responseAdditionalInfo := some "응답 시간 초과 (자동 처리)" } : ScheduledCall).status
          = c.status ∧
        (∀ u, u ≠ uuid → mapGet (handleCallTimeout uuid now st).scheduledCalls u =
          mapGet st.scheduledCalls u)) := by
  refine ⟨?_, ?_, ?_⟩
  · intro h
    unfold handleCallTimeout
    rw [h]
  · intro c hc hr
    unfold handleCallTimeout
    rw [hc]
    dsimp only
    rw [if_pos hr]
  · intro c hc hr
    have hr' : ¬ c.responseStatus.isSome = true := by
      rw [hr]
      simp
    unfold handleCallTimeout
    rw [hc]
    dsimp only
    rw [if_neg hr']
    refine ⟨mapGet_mapSet_self _ _ _, rfl, ?_⟩
    intro u hu
    exact mapGet_mapSet_ne _ _ _ _ hu

/-- Witness for C1: firing the timeout on a concrete dispatched record
with no response stores the automatic `missed` result. -/
theorem C1_handleCallTimeout_spec_witness :
    mapGet (handleCallTimeout exUuidA 5 exStDispatched).scheduledCalls exUuidA =
      some { exRecADispatched with
        responseStatus := some ResponseStatus.missed, responseTime := some 5,
        responseAdditionalInfo := some "응답 시간 초과 (자동 처리)" } :=
  ((C1_handleCallTimeout_spec exStDispatched exUuidA 5).2.2 exRecADispatched
    (by decide) (by decide)).1

/-- C2 (amended): in every reachable state, a record carrying a response is
never `scheduled` — its lifecycle state is `completed` (dispatched) or
`cancelled`.  The claim as stated (never `cancelled`) fails: recording a
response on a cancelled-but-unpurged record keeps it cancelled, see the
counterexample theorem. -/
theorem C2_response_never_scheduled (st : CallsState) (h : Reachable st)
    (u : String) (c : ScheduledCall) (hc : mapGet st.scheduledCalls u = some c)
    (hr : c.responseStatus.isSome) :
    c.status = CallStatus.completed ∨ c.status = CallStatus.cancelled := by
  have hInv := Inv_reachable st h
  have hne := hInv.1 (u, c) (mapGet_mem hc) hr
  rcases hcs : c.status with _ | _ | _
  · exact absurd hcs hne
  · exact Or.inl rfl
  · exact Or.inr rfl

/-- Witness for C2: the reachable state obtained by scheduling then
responding holds a response-carrying record, and the theorem places its
lifecycle state in the dispatched/cancelled set. -/
theorem C2_response_never_scheduled_witness :
    exRecAResponded.status = CallStatus.completed ∨
      exRecAResponded.status = CallStatus.cancelled :=
  C2_response_never_scheduled exStAResp
    (Relation.ReflTransGen.tail
      (Relation.ReflTransGen.single (Step.schedule initialState exDtoA exGB exGB (by decide)))
      (Step.respond exStA exRespA 3000))
    exUuidA exRecAResponded (by decide) (by decide)

/-- C2 counterexample: schedule, cancel, then record a response — a
sequence of public operations after which the registry holds a `cancelled`
record carrying a response, refuting "response set implies lifecycle state
Dispatched, never Cancelled". -/
theorem C2_counterexample_cancelled_with_response :
    Reachable exStACancelResp ∧
    mapGet exStACancelResp.scheduledCalls exUuidA = some exRecACancelResp ∧
    exRecACancelResp.responseStatus = some ResponseStatus.answered ∧
    exRecACancelResp.status = CallStatus.cancelled := by
  refine ⟨?_, by decide, rfl, rfl⟩
  exact Relation.ReflTransGen.tail
    (Relation.ReflTransGen.tail
      (Relation.ReflTransGen.single (Step.schedule initialState exDtoA exGB exGB (by decide)))
      (Step.cancel exStA exUuidA))
    (Step.respond exStACancelled exRespA 3000)

/-- C10: passing recipient identifier 0 to the statistics query is the
same as passing no recipient at all — the JS truthiness test `if
(memberSeq)` treats 0 like `undefined`, so the statistics are computed
over every recipient's calls. -/
theorem C10_stats_zero_member_unscoped (st : CallsState) :
    getCallResponseStats (some 0) st = getCallResponseStats none st := by
  unfold getCallResponseStats
  simp

theorem mapGet_mapDelete_append_self {κ α : Type} [DecidableEq κ] (m : List (κ × α))
    (k : κ) (v : α) : mapGet (mapDelete m k ++ [(k, v)]) k = some v := by
  rw [mapGet_append_of_none _ (by rw [mapGet_mapDelete]; simp)]
  simp [mapGet]

theorem scheduleCall_eq (dto : ScheduleCallDto) (g1 g2 : Nat → String) (st : CallsState) :
    scheduleCall dto g1 g2 st =
      if scheduleCallUuid dto g1 g2 st = "" then
        (Except.error (ServiceError.plainError ErrMsg.uuidMissing), scheduleCallPre dto st)
      else
        (Except.ok (builtScheduledCall dto (scheduleCallUuid dto g1 g2 st) dto.scheduledTime),
          scheduleRecurringCallJob
            (builtScheduledCall dto (scheduleCallUuid dto g1 g2 st) dto.scheduledTime)
            (memberMapPush dto.memberSeq (scheduleCallUuid dto g1 g2 st)
              { scheduleCallPre dto st with
                scheduledCalls :=
                  mapSet (scheduleCallPre dto st).scheduledCalls
                    (scheduleCallUuid dto g1 g2 st)
                    (builtScheduledCall dto (scheduleCallUuid dto g1 g2 st)
                      dto.scheduledTime) })) := rfl

/-- C3 counterexample: a schedule request whose `scheduledTime` is 0 — not
strictly after any plausible current instant — nevertheless succeeds: the
call is returned and stored as `scheduled` and its daily trigger armed.
`scheduleCall` contains no comparison against the current time (it does
not even receive a clock), so no `InvalidSchedule` rejection exists. -/
theorem C3_counterexample_past_schedule_succeeds :
    (scheduleCall exDtoNoUuid exGA exGA initialState).1 =
      Except.ok (builtScheduledCall exDtoNoUuid exUuidA 0) ∧
    mapGet (scheduleCall exDtoNoUuid exGA exGA initialState).2.scheduledCalls exUuidA =
      some (builtScheduledCall exDtoNoUuid exUuidA 0) ∧
    mapHas (scheduleCall exDtoNoUuid exGA exGA initialState).2.cronJobs (cronKey exUuidA) =
      true := by
  refine ⟨rfl, by decide, by decide⟩

/-- C3 (amended): `scheduleCall` never validates `scheduledTime` against
the current time — it takes no clock input at all.  For every request,
past or future alike, as soon as the resolved identifier is nonempty the
call succeeds: the `scheduled` record carrying the request's
`scheduledTime` is returned and stored, and the daily trigger is armed
under `call-<id>` with the hour:minute of that instant. -/
theorem C3_schedule_ignores_time (dto : ScheduleCallDto) (g1 g2 : Nat → String)
    (st : CallsState) (hne : scheduleCallUuid dto g1 g2 st ≠ "") :
    (scheduleCall dto g1 g2 st).1 =
      Except.ok (builtScheduledCall dto (scheduleCallUuid dto g1 g2 st) dto.scheduledTime) ∧
    mapGet (scheduleCall dto g1 g2 st).2.scheduledCalls (scheduleCallUuid dto g1 g2 st) =
      some (builtScheduledCall dto (scheduleCallUuid dto g1 g2 st) dto.scheduledTime) ∧
    mapGet (scheduleCall dto g1 g2 st).2.cronJobs (cronKey (scheduleCallUuid dto g1 g2 st)) =
      some (getMinutes dto.scheduledTime, getHours dto.scheduledTime) := by
  rw [scheduleCall_eq, if_neg hne]
  refine ⟨rfl, ?_, ?_⟩
  · exact mapGet_mapSet_self _ _ _
  · exact mapGet_mapDelete_append_self _ _ _

/-- Witness for C3 at the concrete past-dated request. -/
theorem C3_schedule_ignores_time_witness :
    (scheduleCall exDtoNoUuid exGA exGA initialState).1 =
      Except.ok (builtScheduledCall exDtoNoUuid
        (scheduleCallUuid exDtoNoUuid exGA exGA initialState) 0) :=
  (C3_schedule_ignores_time exDtoNoUuid exGA exGA initialState (by decide)).1

/-- C4 counterexample: recipient 42 already has the `scheduled` call
`exUuidA`; a second schedule request carrying no identifier leaves that
earlier record `scheduled` (not cancelled) and still indexed, and the
recipient's index afterwards holds both identifiers — because the
cancellation at the top of `scheduleCall` is attempted on the
request-supplied identifier, not on the first identifier of the
recipient's index. -/
theorem C4_counterexample_no_cancel_of_first_index_entry :
    mapGet (scheduleCall exDtoNoUuid exGB exGB exStA).2.scheduledCalls exUuidA =
      some (builtScheduledCall exDtoA exUuidA 1000) ∧
    (builtScheduledCall exDtoA exUuidA 1000).status = CallStatus.scheduled ∧
    mapGet (scheduleCall exDtoNoUuid exGB exGB exStA).2.memberCallMap 42 =
      some [exUuidA, exUuidB] := by
  refine ⟨by decide, rfl, by decide⟩

/-- C4 (amended): when the recipient's index is nonempty, `scheduleCall`
attempts the cancellation on the identifier supplied in the request
(swallowing failure), never on the first identifier of the index: with no
request identifier, or one naming no record, nothing is cancelled and the
prior state survives into the storing phase — in particular the index then
receives the new identifier in addition to the old ones; only when the
request's identifier names an existing record is that record cancelled. -/
theorem C4_schedule_cancels_request_identifier (st : CallsState) (dto : ScheduleCallDto)
    (l : List String) (hl : mapGet st.memberCallMap dto.memberSeq = some l)
    (hne : l ≠ []) :
    scheduleCallPre dto st = tryCancelRequestUuid dto.uuid st ∧
    (dto.uuid = none → scheduleCallPre dto st = st) ∧
    (∀ u, dto.uuid = some u → mapGet st.scheduledCalls u = none →
        scheduleCallPre dto st = st) ∧
    (∀ u c, dto.uuid = some u → mapGet st.scheduledCalls u = some c →
        mapGet (scheduleCallPre dto st).scheduledCalls u =
          some { c with status := CallStatus.cancelled }) ∧
    (dto.uuid = none → ∀ g1 g2, scheduleCallUuid dto g1 g2 st ≠ "" →
        mapGet (scheduleCall dto g1 g2 st).2.memberCallMap dto.memberSeq =
          some (l ++ [scheduleCallUuid dto g1 g2 st])) := by
  have hpre : scheduleCallPre dto st = tryCancelRequestUuid dto.uuid st := by
    unfold scheduleCallPre
    rw [hl]
    dsimp only
    rw [if_pos (by simpa [List.length_pos] using hne)]
  refine ⟨hpre, ?_, ?_, ?_, ?_⟩
  · intro hu
    rw [hpre, hu]
    rfl
  · intro u hu hget
    rw [hpre, hu]
    unfold tryCancelRequestUuid cancelScheduledCall
    dsimp only
    rw [hget]
  · intro u c hu hget
    rw [hpre, hu]
    unfold tryCancelRequestUuid cancelScheduledCall
    dsimp only
    rw [hget]
    dsimp only
    rw [memberMapRemove_scheduledCalls]
    dsimp only
    rw [clearCallTimeout_eq]
    exact mapGet_mapSet_self _ _ _
  · intro hu g1 g2 hne2
    have hpre2 : scheduleCallPre dto st = st := by
      rw [hpre, hu]
      rfl
    rw [scheduleCall_eq, if_neg hne2]
    dsimp only
    rw [scheduleRecurringCallJob_memberCallMap, memberMapPush_memberCallMap]
    dsimp only
    rw [hpre2, hl]
    dsimp only [Option.getD]
    exact mapGet_mapSet_self _ _ _

/-- Witness for C4 at the concrete second-schedule request: the index of
recipient 42 afterwards holds the old and the new identifier. -/
theorem C4_schedule_cancels_request_identifier_witness :
    mapGet (scheduleCall exDtoNoUuid exGB exGB exStA).2.memberCallMap 42 =
      some ([exUuidA] ++ [scheduleCallUuid exDtoNoUuid exGB exGB exStA]) :=
  ((C4_schedule_cancels_request_identifier exStA exDtoNoUuid [exUuidA] (by decide)
    (by decide)).2.2.2.2) rfl exGB exGB (by decide)

theorem sendNotificationFix_of_valid (fixGen : String) (call : ScheduledCall)
    (st : CallsState) (hvalid : ensureValidUUID fixGen call.uuid = call.uuid) :
    sendNotificationFix fixGen call st = (call, st) := by
  unfold sendNotificationFix
  dsimp only
  rw [hvalid, if_pos rfl]

theorem initiateCall_scheduled_eq (oc : DispatchOutcome) (fixGen : String)
    (call : ScheduledCall) (st : CallsState)
    (hvalid : ensureValidUUID fixGen call.uuid = call.uuid) :
    initiateCall false oc fixGen call st =
      setCallTimeout call.uuid 60000
        { st with
          scheduledCalls := mapSet st.scheduledCalls call.uuid
            { call with status := CallStatus.completed } } := by
  have hv2 : ensureValidUUID fixGen
      ({ call with status := CallStatus.completed } : ScheduledCall).uuid =
        ({ call with status := CallStatus.completed } : ScheduledCall).uuid := hvalid
  unfold initiateCall
  cases oc
  · rfl
  · dsimp only
    rw [sendNotificationFix_of_valid _ _ _ hv2]
    rfl
  · dsimp only
    rw [sendNotificationFix_of_valid _ _ _ hv2]
    rfl
  · rfl


/-- C5: for a dispatched (non-immediate) call with a well-formed
identifier, every dispatch outcome — notification delivered, delivery
failed inside the transport, Firebase absent, or an exception reaching the
outer catch — produces the same state: the record is `completed`
(Dispatched) and exactly one response timeout of 60000 ms is armed under
the call's identifier, any previously armed one having been removed
first; a second dispatch for the same identifier therefore replaces the
timeout (one entry, fresh timer handle) instead of duplicating it. -/
theorem C5_dispatch_failure_absorbed (st : CallsState) (call : ScheduledCall)
    (fixGen : String) (hvalid : ensureValidUUID fixGen call.uuid = call.uuid) :
    (∀ oc1 oc2 : DispatchOutcome,
        initiateCall false oc1 fixGen call st = initiateCall false oc2 fixGen call st) ∧
    mapGet (initiateCall false DispatchOutcome.deliveryFailed fixGen call st).scheduledCalls
        call.uuid = some { call with status := CallStatus.completed } ∧
    (initiateCall false DispatchOutcome.deliveryFailed fixGen call st).callTimeouts =
      mapDelete st.callTimeouts call.uuid ++
        [(call.uuid, { timerId := st.nextTimerId, delayMs := 60000 })] ∧
    (initiateCall false DispatchOutcome.deliveryFailed fixGen call st).callTimeouts.filter
        (fun e => e.1 == call.uuid) =
      [(call.uuid, { timerId := st.nextTimerId, delayMs := 60000 })] ∧
    (initiateCall false DispatchOutcome.delivered fixGen call
        (initiateCall false DispatchOutcome.deliveryFailed fixGen call st)).callTimeouts.filter
        (fun e => e.1 == call.uuid) =
      [(call.uuid, { timerId := st.nextTimerId + 1, delayMs := 60000 })] := by
  have hbase := initiateCall_scheduled_eq DispatchOutcome.deliveryFailed fixGen call st hvalid
  refine ⟨?_, ?_, ?_, ?_, ?_⟩
  · intro oc1 oc2
    rw [initiateCall_scheduled_eq oc1 fixGen call st hvalid,
      initiateCall_scheduled_eq oc2 fixGen call st hvalid]
  · rw [hbase, setCallTimeout_eq]
    exact mapGet_mapSet_self _ _ _
  · rw [hbase, setCallTimeout_eq]
  · rw [hbase, setCallTimeout_eq]
    dsimp only
    rw [List.filter_append, filter_keyEq_mapDelete_nil]
    simp [List.filter_cons]
  · rw [initiateCall_scheduled_eq DispatchOutcome.delivered fixGen call _ hvalid, hbase,
      setCallTimeout_eq, setCallTimeout_eq]
    dsimp only
    rw [mapDelete_append, mapDelete_mapDelete]
    rw [List.filter_append, List.filter_append, filter_keyEq_mapDelete_nil]
    have : mapDelete [(call.uuid,
        ({ timerId := st.nextTimerId, delayMs := 60000 } : TimeoutEntry))] call.uuid = [] := by
      simp [mapDelete]
    rw [this]
    simp [List.filter_cons]

/-- Witness for C5 at a concrete dispatched record. -/
theorem C5_dispatch_failure_absorbed_witness :
    mapGet (initiateCall false DispatchOutcome.deliveryFailed "z" exRecADispatched
        initialState).scheduledCalls exUuidA =
      some { exRecADispatched with status := CallStatus.completed } :=
  (C5_dispatch_failure_absorbed initialState exRecADispatched "z" (by decide)).2.1

/-- C6: `handleCallResponse` fails with `NotFoundException` and changes
nothing when no record exists under the identifier; otherwise it returns
and stores the record with the three response fields taken from the
request (response time defaulting to now), upgrades lifecycle state
`scheduled` to `completed` while leaving any other state as it was,
clears any pending response timeout for the identifier, and touches no
other record.  The update never consults the previously stored response,
so a second response for the same identifier — including one arriving
after an automatic `missed` — simply overwrites the first without any
conflict error. -/
theorem C6_handleCallResponse_spec (dto : CallResponseDto) (now : Int) (st : CallsState) :
    (mapGet st.scheduledCalls dto.uuid = none →
        handleCallResponse dto now st =
          (Except.error (ServiceError.notFoundException ErrMsg.noCallForId), st)) ∧
    (∀ c, mapGet st.scheduledCalls dto.uuid = some c →
        (handleCallResponse dto now st).1 = Except.ok (responseUpdatedRecord c dto now) ∧
        mapGet (handleCallResponse dto now st).2.scheduledCalls dto.uuid =
          some (responseUpdatedRecord c dto now) ∧
        mapGet (handleCallResponse dto now st).2.callTimeouts dto.uuid = none ∧
        (responseUpdatedRecord c dto now).responseStatus = some dto.status ∧
        (responseUpdatedRecord c dto now).responseTime = some (dto.responseTime.getD now) ∧
        (responseUpdatedRecord c dto now).responseAdditionalInfo = dto.additionalInfo ∧
        (c.status = CallStatus.scheduled →
          (responseUpdatedRecord c dto now).status = CallStatus.completed) ∧
        (c.status ≠ CallStatus.scheduled →
          (responseUpdatedRecord c dto now).status = c.status) ∧
        (∀ u, u ≠ dto.uuid →
          mapGet (handleCallResponse dto now st).2.scheduledCalls u =
            mapGet st.scheduledCalls u)) := by
  constructor
  · intro h
    unfold handleCallResponse
    rw [h]
  · intro c hc
    unfold handleCallResponse
    rw [hc]
    dsimp only
    rw [clearCallTimeout_eq]
    refine ⟨rfl, ?_, ?_, ?_, ?_, ?_, ?_, ?_, ?_⟩
    · exact mapGet_mapSet_self _ _ _
    · rw [mapGet_mapDelete, if_pos rfl]
    · unfold responseUpdatedRecord
      dsimp only
      split <;> rfl
    · unfold responseUpdatedRecord
      dsimp only
      split <;> rfl
    · unfold responseUpdatedRecord
      dsimp only
      split <;> rfl
    · intro hsch
      unfold responseUpdatedRecord
      dsimp only
      rw [if_pos hsch]
    · intro hsch
      unfold responseUpdatedRecord
      dsimp only
      rw [if_neg hsch]
    · intro u hu
      exact mapGet_mapSet_ne _ _ _ _ hu

/-- Witness for C6: responding `answered` to a record that was already
auto-resolved to `missed` overwrites the stored response. -/
theorem C6_handleCallResponse_spec_witness :
    mapGet (handleCallResponse exRespA 3000 exStMissed).2.scheduledCalls exUuidA =
      some (responseUpdatedRecord exRecAMissed exRespA 3000) :=
  (((C6_handleCallResponse_spec exRespA 3000 exStMissed).2 exRecAMissed (by decide)).2).1

/-- C7 counterexample: toggling `exUuidA` as recipient 7 (the record
belongs to recipient 42) fails with a `NotFoundException` carrying the
permission message — the same error class the code uses for an unknown
identifier, and the only not-found-like class it ever throws; no distinct
`Forbidden` error class exists anywhere in the service, refuting the
claim that the ownership mismatch surfaces as a Forbidden error distinct
from NotFound. -/
theorem C7_counterexample_mismatch_not_forbidden_class :
    (toggleScheduledCall exToggleWrong exStA).1 =
      Except.error (ServiceError.notFoundException ErrMsg.noPermission) ∧
    (toggleScheduledCall exToggleWrong exStA).2 = exStA := by
  exact ⟨rfl, by decide⟩

/-- C7 (amended): when a toggle request supplies a (nonempty) identifier
whose record belongs to a different recipient, the operation fails with a
`NotFoundException` carrying a permission-denied message — distinguished
from the unknown-identifier case only by its message, not by its class
(the controller maps both to HTTP 404) — and the registry is unchanged;
when the record belongs to the requesting recipient its `enabled` flag is
set to the requested value, the updated record is returned and stored,
and no other record changes. -/
theorem C7_toggle_ownership_mismatch (st : CallsState) (dto : ToggleCallDto) (u : String)
    (c : ScheduledCall) (hu : dto.uuid = some u) (hne : ¬ u = "")
    (hc : mapGet st.scheduledCalls u = some c) :
    (c.memberSeq ≠ dto.memberSeq →
        toggleScheduledCall dto st =
          (Except.error (ServiceError.notFoundException ErrMsg.noPermission), st)) ∧
    (c.memberSeq = dto.memberSeq →
        (toggleScheduledCall dto st).1 = Except.ok { c with enabled := dto.enabled } ∧
        mapGet (toggleScheduledCall dto st).2.scheduledCalls u =
          some { c with enabled := dto.enabled } ∧
        (∀ u2, u2 ≠ u → mapGet (toggleScheduledCall dto st).2.scheduledCalls u2 =
          mapGet st.scheduledCalls u2)) := by
  unfold toggleScheduledCall
  rw [hu]
  dsimp only
  rw [if_neg hne, hc]
  dsimp only
  constructor
  · intro hm
    rw [if_pos hm]
  · intro hm
    rw [if_neg (not_not_intro hm)]
    exact ⟨rfl, mapGet_mapSet_self _ _ _, fun u2 h2 => mapGet_mapSet_ne _ _ _ _ h2⟩

/-- Witness for C7: the owner's toggle succeeds and stores the updated
`enabled` flag. -/
theorem C7_toggle_ownership_mismatch_witness :
    (toggleScheduledCall exToggleRight exStA).1 =
      Except.ok { builtScheduledCall exDtoA exUuidA 1000 with enabled := false } :=
  (((C7_toggle_ownership_mismatch exStA exToggleRight exUuidA
      (builtScheduledCall exDtoA exUuidA 1000) rfl (by decide) (by decide)).2) rfl).1

theorem toFixed1Pct_shape (num total : Nat) :
    ∃ a b : Nat, b < 10 ∧
      toFixed1Pct num total ++ "%" = toString a ++ "." ++ toString b ++ "%" :=
  ⟨(2000 * num + total) / (2 * total) / 10, (2000 * num + total) / (2 * total) % 10,
    Nat.mod_lt _ (by norm_num), rfl⟩

/-- C8 counterexample: with the recipient filter 0, the statistics are not
restricted to recipient 0's calls — recipient 0 has no entry in the
index, yet the returned totals count recipient 1's dispatched call,
because the JS truthiness test `if (memberSeq)` treats recipient 0 like a
missing filter. -/
theorem C8_counterexample_zero_member_not_restricted :
    mapGet exStatsSt.memberCallMap 0 = none ∧
    getCallResponseStats (some 0) exStatsSt =
      { totalCalls := 1, answered := 1, declined := 0, missed := 0, noResponse := 0,
        answerRate := "100.0%" } :=
  ⟨rfl, by decide⟩

/-- C8 (amended): the statistics count only `completed` (Dispatched)
calls — scoped to the recipient's indexed calls when a nonzero recipient
is given, and over the whole registry when the filter is absent or 0
(truthiness) — into four buckets that partition the total; `answerRate`
is `(answered + declined) / total` rendered as a percentage string with
exactly one decimal digit and a trailing `%`, and a zero total yields
all-zero counts with `0.0%`. -/
theorem C8_stats_semantics (memberSeq : Option Int) (st : CallsState) (s : CallStats)
    (hs : getCallResponseStats memberSeq st = s) :
    s.answered + s.declined + s.missed + s.noResponse = s.totalCalls ∧
    (s.totalCalls = 0 → s.answerRate = "0.0%") ∧
    (s.totalCalls = 0 →
        s.answered = 0 ∧ s.declined = 0 ∧ s.missed = 0 ∧ s.noResponse = 0) ∧
    (0 < s.totalCalls →
        s.answerRate = toFixed1Pct (s.answered + s.declined) s.totalCalls ++ "%") ∧
    (∃ a b : Nat, b < 10 ∧ s.answerRate = toString a ++ "." ++ toString b ++ "%") ∧
    getCallResponseStats (some 0) st = getCallResponseStats none st := by
  subst hs
  unfold getCallResponseStats
  dsimp only
  refine ⟨countP_responseStatus_partition _, ?_, ?_, ?_, ?_, by simp⟩
  · intro h
    rw [h]
    rfl
  · intro h
    refine ⟨?_, ?_, ?_, ?_⟩ <;> exact Nat.le_zero.1 (h ▸ List.countP_le_length _)
  · intro h
    rw [if_pos h]
  · by_cases h : 0 <
        (((match memberSeq with
          | some m =>
            if m ≠ 0 then
              ((mapGet st.memberCallMap m).getD []).filterMap
                (fun u => mapGet st.scheduledCalls u)
            else mapValues st.scheduledCalls
          | none => mapValues st.scheduledCalls : List ScheduledCall)).filter
          (fun (c : ScheduledCall) => c.status = CallStatus.completed)).length
    · rw [if_pos h]
      exact toFixed1Pct_shape _ _
    · rw [if_neg h]
      exact ⟨0, 0, by norm_num, rfl⟩

/-- Witness for C8: the unscoped statistics over the one-record registry. -/
theorem C8_stats_semantics_witness :
    (getCallResponseStats none exStatsSt).answered +
        (getCallResponseStats none exStatsSt).declined +
        (getCallResponseStats none exStatsSt).missed +
        (getCallResponseStats none exStatsSt).noResponse =
      (getCallResponseStats none exStatsSt).totalCalls :=
  (C8_stats_semantics none exStatsSt (getCallResponseStats none exStatsSt) rfl).1

theorem mapSet_mapSet {κ α : Type} [DecidableEq κ] (m : List (κ × α)) (k : κ) (v w : α) :
    mapSet (mapSet m k v) k w = mapSet m k w := by
  induction m with
  | nil => simp [mapSet]
  | cons e rest ih =>
      rw [mapSet]
      by_cases he : e.1 = k
      · rw [if_pos he, mapSet, if_pos rfl, mapSet, if_pos he]
      · rw [if_neg he, mapSet, if_neg he, mapSet, if_neg he, ih]

theorem stateExt (a b : CallsState) (h1 : a.scheduledCalls = b.scheduledCalls)
    (h2 : a.memberCallMap = b.memberCallMap) (h3 : a.callTimeouts = b.callTimeouts)
    (h4 : a.cronJobs = b.cronJobs) (h5 : a.nextTimerId = b.nextTimerId) : a = b := by
  cases a
  cases b
  cases h1
  cases h2
  cases h3
  cases h4
  cases h5
  rfl

theorem memberMapRemove_memberCallMap (ms : Int) (u : String) (st : CallsState) :
    (memberMapRemove ms u st).memberCallMap =
      (match mapGet st.memberCallMap ms with
        | none => st.memberCallMap
        | some l =>
            if (l.filter (fun x => x ≠ u)).isEmpty then mapDelete st.memberCallMap ms
            else mapSet st.memberCallMap ms (l.filter (fun x => x ≠ u))) := by
  unfold memberMapRemove
  cases mapGet st.memberCallMap ms
  · rfl
  · dsimp only
    split <;> rfl

theorem memberMapRemove_cronJobs (ms : Int) (u : String) (st : CallsState) :
    (memberMapRemove ms u st).cronJobs = st.cronJobs := by
  unfold memberMapRemove
  cases mapGet st.memberCallMap ms
  · rfl
  · dsimp only
    split <;> rfl

theorem memberMapRemove_nextTimerId (ms : Int) (u : String) (st : CallsState) :
    (memberMapRemove ms u st).nextTimerId = st.nextTimerId := by
  unfold memberMapRemove
  cases mapGet st.memberCallMap ms
  · rfl
  · dsimp only
    split <;> rfl

theorem filter_ne_append_singleton {l : List String} {u : String} (h : u ∉ l) :
    (l ++ [u]).filter (fun x => x ≠ u) = l := by
  rw [List.filter_append]
  have h1 : l.filter (fun x => x ≠ u) = l := by
    apply List.filter_eq_self.2
    intro a ha
    have hne : a ≠ u := fun he => h (he ▸ ha)
    simpa using hne
  have h2 : ([u] : List String).filter (fun x => x ≠ u) = [] := by simp
  rw [h1, h2, List.append_nil]

theorem initiateImmediateCall_eq (dto : ScheduleCallDto) (g1 g2 : Nat → String) (now : Int)
    (oc : DispatchOutcome) (fixGen : String) (st : CallsState) :
    initiateImmediateCall dto g1 g2 now oc fixGen st =
      if immediateCallUuid dto g1 g2 st = "" then
        (Except.error (ServiceError.plainError ErrMsg.uuidMissing), st)
      else
        (Except.ok (builtScheduledCall dto (immediateCallUuid dto g1 g2 st) now),
          initiateCall true oc fixGen
            (builtScheduledCall dto (immediateCallUuid dto g1 g2 st) now)
            (memberMapPush dto.memberSeq (immediateCallUuid dto g1 g2 st)
              { st with
                scheduledCalls := mapSet st.scheduledCalls (immediateCallUuid dto g1 g2 st)
                  (builtScheduledCall dto (immediateCallUuid dto g1 g2 st) now) })) := rfl

theorem initiateCall_immediate_eq (oc : DispatchOutcome) (fixGen : String)
    (call : ScheduledCall) (st : CallsState)
    (hvalid : ensureValidUUID fixGen call.uuid = call.uuid) :
    initiateCall true oc fixGen call st =
      removeImmediateCallData { call with status := CallStatus.completed }
        (setCallTimeout call.uuid 60000
          { st with
            scheduledCalls := mapSet st.scheduledCalls call.uuid
              { call with status := CallStatus.completed } }) := by
  have hv2 : ensureValidUUID fixGen
      ({ call with status := CallStatus.completed } : ScheduledCall).uuid =
        ({ call with status := CallStatus.completed } : ScheduledCall).uuid := hvalid
  unfold initiateCall
  cases oc
  · rfl
  · dsimp only
    rw [sendNotificationFix_of_valid _ _ _ hv2]
    rfl
  · dsimp only
    rw [sendNotificationFix_of_valid _ _ _ hv2]
    rfl
  · rfl

/-- C9: an immediate call stores a fresh record and dispatches it
synchronously, and on every dispatch path — Firebase-uninitialised test
mode, delivered send, failed send, and the outer catch — the stored data
is removed again: the record is deleted from the registry and from the
recipient index and its response timeout is cleared, so the service
retains nothing for later response recording, statistics or history (only
the timer-handle counter has advanced), although the now-unregistered
record object is still returned to the caller. -/
theorem C9_immediate_call_retains_nothing (dto : ScheduleCallDto) (g1 g2 : Nat → String)
    (now : Int) (oc : DispatchOutcome) (fixGen : String) (st : CallsState) (u : String)
    (hu : immediateCallUuid dto g1 g2 st = u) (hne : ¬ u = "")
    (hfresh : mapGet st.scheduledCalls u = none)
    (hvalid : ensureValidUUID fixGen u = u)
    (hidx : ∀ l, mapGet st.memberCallMap dto.memberSeq = some l → u ∉ l ∧ l ≠ []) :
    (initiateImmediateCall dto g1 g2 now oc fixGen st).1 =
      Except.ok (builtScheduledCall dto u now) ∧
    (initiateImmediateCall dto g1 g2 now oc fixGen st).2 =
      { st with
        callTimeouts := mapDelete st.callTimeouts u,
        nextTimerId := st.nextTimerId + 1 } := by
  have hvalid2 : ensureValidUUID fixGen (builtScheduledCall dto u now).uuid =
      (builtScheduledCall dto u now).uuid := hvalid
  rw [initiateImmediateCall_eq, hu, if_neg hne]
  refine ⟨rfl, ?_⟩
  rw [initiateCall_immediate_eq oc fixGen _ _ hvalid2]
  unfold removeImmediateCallData
  rw [clearCallTimeout_eq]
  dsimp only [builtScheduledCall]
  apply stateExt
  · rw [memberMapRemove_scheduledCalls]
    dsimp only
    rw [setCallTimeout_eq]
    dsimp only
    rw [memberMapPush_scheduledCalls]
    dsimp only
    rw [mapDelete_mapSet, mapDelete_mapSet, mapDelete_of_mapGet_eq_none hfresh]
  · rw [memberMapRemove_memberCallMap]
    dsimp only
    rw [setCallTimeout_eq]
    dsimp only
    rw [memberMapPush_memberCallMap]
    dsimp only
    rw [mapGet_mapSet_self]
    dsimp only
    cases hmm : mapGet st.memberCallMap dto.memberSeq with
    | none =>
        dsimp only [Option.getD]
        rw [filter_ne_append_singleton (by simp)]
        dsimp only [List.isEmpty]
        rw [mapSet_mapSet]
        rw [if_pos rfl]
        rw [mapDelete_mapSet, mapDelete_of_mapGet_eq_none hmm]
    | some l =>
        obtain ⟨hl1, hl2⟩ := hidx l hmm
        dsimp only [Option.getD]
        rw [filter_ne_append_singleton hl1]
        cases l with
        | nil => exact absurd rfl hl2
        | cons x xs =>
            dsimp only [List.isEmpty]
            rw [if_neg (by simp)]
            rw [mapSet_mapSet, mapSet_eq_of_mapGet_eq hmm]
  · rw [memberMapRemove_callTimeouts]
    dsimp only
    rw [setCallTimeout_eq]
    dsimp only
    rw [memberMapPush_callTimeouts, memberMapPush_nextTimerId]
    dsimp only
    rw [mapDelete_append, mapDelete_mapDelete]
    have hsingle : mapDelete
        [(u, ({ timerId := st.nextTimerId, delayMs := 60000 } : TimeoutEntry))] u = [] := by
      simp [mapDelete]
    rw [hsingle, List.append_nil]
  · rw [memberMapRemove_cronJobs]
    dsimp only
    rw [setCallTimeout_eq]
    dsimp only
    rw [memberMapPush_cronJobs]
  · rw [memberMapRemove_nextTimerId]
    dsimp only
    rw [setCallTimeout_eq]
    dsimp only
    rw [memberMapPush_nextTimerId]

/-- Witness for C9: a concrete immediate call on the fresh service leaves
the service state empty again (only the timer counter advanced). -/
theorem C9_immediate_call_retains_nothing_witness :
    (initiateImmediateCall exDtoNoUuid exGA exGA 777 DispatchOutcome.deliveryFailed "z"
        initialState).2 =
      { initialState with
        callTimeouts := mapDelete initialState.callTimeouts exUuidA,
        nextTimerId := 1 } :=
  (C9_immediate_call_retains_nothing exDtoNoUuid exGA exGA 777
    DispatchOutcome.deliveryFailed "z" initialState exUuidA (by decide) (by decide)
    (by decide) (by decide)
    (fun l h => by simp [initialState, mapGet] at h)).2

end ServerScheduleCall
